import Mathlib

/-!  Verification of the quilt Tiling Engine (src/config.js).

The JavaScript engine is shallowly embedded.  Geometry uses exact rational
arithmetic, every `Math.random()` draw is an explicit oracle input, and
`QuiltEngine.generateId` is modelled by a fresh natural-number counter
threaded through the engine state (its JS implementation builds an
identifier from the clock plus a random suffix; the model keeps its intent
of never repeating an identifier).  JavaScript exceptions are `Except`
values, and a call that throws after mutating state returns the mutated
state, because the source performs no rollback.  -/

namespace Quilt

/- Rational arithmetic is `[irreducible]` in the library, which only blocks
the elaborator's evaluation of `decide`-style proofs; restore the default
reducibility for this file so concrete engine runs evaluate. -/
attribute [local semireducible] Rat.add Rat.mul Rat.sub Rat.inv

/-- QUILT_CONFIG.FREEZE_THRESHOLD (src/config.js line 64). -/
def FREEZE_THRESHOLD : ℕ := 20

/-- QUILT_CONFIG.MIN_SHAPE_SIZE (line 65). -/
def MIN_SHAPE_SIZE : ℚ := 40

/-- QUILT_CONFIG.COLOR_SIMILARITY_THRESHOLD (line 66). -/
def COLOR_SIMILARITY_THRESHOLD : ℤ := 35

/-- QUILT_CONFIG.DEFAULT_COLOR (line 67). -/
def DEFAULT_COLOR : String := "#f7b733"

/-- QUILT_CONFIG.QUILT_SIZE (line 68). -/
def QUILT_SIZE : ℚ := 1000

/-- One hexadecimal digit of the case-insensitive class `[a-f\d]` used by
`ColorUtils.hexToRgb` (line 304), by the numeric ranges of character codes
(`0`-`9`, `a`-`f`, `A`-`F`). -/
def hexVal (ch : Char) : Option ℕ :=
  if 48 ≤ ch.toNat ∧ ch.toNat ≤ 57 then some (ch.toNat - 48)
  else if 97 ≤ ch.toNat ∧ ch.toNat ≤ 102 then some (ch.toNat - 97 + 10)
  else if 65 ≤ ch.toNat ∧ ch.toNat ≤ 70 then some (ch.toNat - 65 + 10)
  else none

/-- A parsed RGB triple, each channel in 0..255. -/
structure Rgb where
  r : ℕ
  g : ℕ
  b : ℕ
deriving DecidableEq, Repr

/-- `parseInt(hh, 16)` on one captured two-digit group of the regex. -/
def hexPair (c1 c2 : Char) : Option ℕ :=
  match hexVal c1, hexVal c2 with
  | some h1, some h2 => some (h1 * 16 + h2)
  | _, _ => none

/-- Exactly six hex digits, grouped in pairs. -/
def parseHex6 : List Char → Option Rgb
  | [a1, a2, a3, a4, a5, a6] =>
    match hexPair a1 a2, hexPair a3 a4, hexPair a5 a6 with
    | some r, some g, some b => some ⟨r, g, b⟩
    | _, _, _ => none
  | _ => none

/-- ColorUtils.hexToRgb (lines 303-310): the anchored regex
`/^#?([a-f\d]{2})([a-f\d]{2})([a-f\d]{2})$/i`, `null` on failure. -/
def hexToRgb (hex : String) : Option Rgb :=
  match hex.data with
  | '#' :: rest => parseHex6 rest
  | cs => parseHex6 cs

/-- The squared RGB distance `dr*dr + dg*dg + db*db` whose square root
line 332 of the source returns. -/
def dsqOf (a b : Rgb) : ℤ :=
  ((a.r : ℤ) - b.r) ^ 2 + ((a.g : ℤ) - b.g) ^ 2 + ((a.b : ℤ) - b.b) ^ 2

/-- A number returned by ColorUtils.getColorDifference: either `Infinity`
or the finite value `Math.sqrt d`.  The square `d` is kept exact, and every
comparison the engine makes against the value is rewritten through the
strictly monotone square root, so no irrational number is ever needed. -/
inductive ColorDiff where
  | infinity : ColorDiff
  | val : ℤ → ColorDiff
deriving DecidableEq, Repr

/-- ColorUtils.getColorDifference (lines 322-333); returns `Infinity` when
either color fails to parse. -/
def getColorDifference (c1 c2 : String) : ColorDiff :=
  match hexToRgb c1, hexToRgb c2 with
  | some rgb1, some rgb2 => ColorDiff.val (dsqOf rgb1 rgb2)
  | _, _ => ColorDiff.infinity

/-- `difference <= QUILT_CONFIG.COLOR_SIMILARITY_THRESHOLD` (line 340):
`√d ≤ 35` iff `d ≤ 35²`, and `Infinity ≤ 35` is false. -/
def diffLe35 : ColorDiff → Bool
  | ColorDiff.infinity => false
  | ColorDiff.val d => decide (d ≤ COLOR_SIMILARITY_THRESHOLD ^ 2)

/-- ColorUtils.isColorSimilar (lines 338-341). -/
def isColorSimilar (c1 c2 : String) : Bool :=
  diffLe35 (getColorDifference c1 c2)

/-- `difference < smallestDifference` (lines 620 and 757) on values that may
be `Infinity`: `√a < √b` iff `a < b`, nothing is below `Infinity`-free
`Infinity`, and every finite value is below `Infinity`. -/
def diffLt (a b : ColorDiff) : Bool :=
  match a, b with
  | ColorDiff.infinity, _ => false
  | ColorDiff.val _, ColorDiff.infinity => true
  | ColorDiff.val d1, ColorDiff.val d2 => decide (d1 < d2)

/-- JavaScript `Math.round`: round half toward positive infinity. -/
def jsRound (q : ℚ) : ℤ := ⌊q + 1 / 2⌋

/-- Truncation toward zero, as JavaScript integer division truncates. -/
def ratTrunc (q : ℚ) : ℤ := if 0 ≤ q then ⌊q⌋ else -⌊-q⌋

/-- The JavaScript `%` operator: remainder with the sign of the dividend. -/
def jsRem (a b : ℚ) : ℚ := a - b * ratTrunc (a / b)

def maxChan (c : Rgb) : ℕ := max c.r (max c.g c.b)

def minChan (c : Rgb) : ℕ := min c.r (min c.g c.b)

/-- The pre-rounding hue of ColorUtils.getColorFamilyName (lines 357-364),
including the `% 6` applied in the `max === r` branch. -/
def hueRawCode (c : Rgb) : ℚ :=
  if maxChan c = c.r then
    jsRem (((c.g : ℚ) - c.b) / ((maxChan c : ℚ) - minChan c)) 6
  else if maxChan c = c.g then
    ((c.b : ℚ) - c.r) / ((maxChan c : ℚ) - minChan c) + 2
  else
    ((c.r : ℚ) - c.g) / ((maxChan c : ℚ) - minChan c) + 4

/-- `hue = Math.round(hue * 60); if (hue < 0) hue += 360;` (lines 366-367). -/
def hueCode (c : Rgb) : ℤ :=
  if jsRound (hueRawCode c * 60) < 0 then jsRound (hueRawCode c * 60) + 360
  else jsRound (hueRawCode c * 60)

/-- The hue-to-name chain of lines 370-377. -/
def familyBandChain (h : ℤ) : String :=
  if 0 ≤ h ∧ h < 30 then "red"
  else if 30 ≤ h ∧ h < 60 then "orange"
  else if 60 ≤ h ∧ h < 90 then "yellow"
  else if 90 ≤ h ∧ h < 150 then "green"
  else if 150 ≤ h ∧ h < 210 then "cyan"
  else if 210 ≤ h ∧ h < 270 then "blue"
  else if 270 ≤ h ∧ h < 330 then "purple"
  else "pink"

/-- ColorUtils.getColorFamilyName on an already parsed color
(lines 350-377). -/
def familyOfRgb (c : Rgb) : String :=
  if maxChan c - minChan c = 0 then "gray" else familyBandChain (hueCode c)

/-- ColorUtils.getColorFamilyName (lines 346-378); `'unknown'` when the
color does not parse. -/
def getColorFamilyName (hex : String) : String :=
  match hexToRgb hex with
  | none => "unknown"
  | some rgb => familyOfRgb rgb

/-- The mathematical piecewise hexcone hue fraction (no JavaScript
remainder); used to state the amended claim C5. -/
def hueRawSpec (c : Rgb) : ℚ :=
  if maxChan c = c.r then ((c.g : ℚ) - c.b) / ((maxChan c : ℚ) - minChan c)
  else if maxChan c = c.g then ((c.b : ℚ) - c.r) / ((maxChan c : ℚ) - minChan c) + 2
  else ((c.r : ℚ) - c.g) / ((maxChan c : ℚ) - minChan c) + 4

/-- The hue in degrees, rounded and wrapped exactly as the code rounds and
wraps; used to state the amended claim C5. -/
def hueDegOf (c : Rgb) : ℤ :=
  if jsRound (hueRawSpec c * 60) < 0 then jsRound (hueRawSpec c * 60) + 360
  else jsRound (hueRawSpec c * 60)

/-- The band table the code actually implements, written from the amended
claim C5: red [0,30), orange [30,60), yellow [60,90), green [90,150),
cyan [150,210), blue [210,270), purple [270,330), pink for the rest. -/
def familyBandSpec (h : ℤ) : String :=
  if 0 ≤ h ∧ h < 30 then "red"
  else if 30 ≤ h ∧ h < 60 then "orange"
  else if 60 ≤ h ∧ h < 90 then "yellow"
  else if 90 ≤ h ∧ h < 150 then "green"
  else if 150 ≤ h ∧ h < 210 then "cyan"
  else if 210 ≤ h ∧ h < 270 then "blue"
  else if 270 ≤ h ∧ h < 330 then "purple"
  else "pink"

/-- Reading of claim C5's "buckets the hue into one of the eight chromatic
labels using fixed 30°-wide hue bands": any two colors the function places
in the same chromatic family must have code-computed hues at most 30°
apart, since both would lie inside one band of width 30. -/
def familyBands30 : Prop :=
  ∀ c1 c2 : Rgb, familyOfRgb c1 = familyOfRgb c2 → familyOfRgb c1 ≠ "gray" →
    (hueDegOf c1 - hueDegOf c2).natAbs ≤ 30

/-- `'KEY_SHAPE' | 'BORDER_SHAPE'` (line 179). -/
inductive ShapeType where
  | key : ShapeType
  | border : ShapeType
deriving DecidableEq, Repr

/-- `'horizontal' | 'vertical'` split directions. -/
inductive Direction where
  | horizontal : Direction
  | vertical : Direction
deriving DecidableEq, Repr

/-- A shape's `position` record `{x, y, width, height}` (line 181). -/
structure Rect where
  x : ℚ
  y : ℚ
  width : ℚ
  height : ℚ
deriving DecidableEq, Repr

/-- A point lies in the closed rectangle. -/
def memRect (p : ℚ × ℚ) (r : Rect) : Prop :=
  r.x ≤ p.1 ∧ p.1 ≤ r.x + r.width ∧ r.y ≤ p.2 ∧ p.2 ≤ r.y + r.height

/-- A point lies strictly inside the rectangle. -/
def interiorMemRect (p : ℚ × ℚ) (r : Rect) : Prop :=
  r.x < p.1 ∧ p.1 < r.x + r.width ∧ r.y < p.2 ∧ p.2 < r.y + r.height

instance (p : ℚ × ℚ) (r : Rect) : Decidable (memRect p r) := by
  unfold memRect; infer_instance

instance (p : ℚ × ℚ) (r : Rect) : Decidable (interiorMemRect p r) := by
  unfold interiorMemRect; infer_instance

def rectArea (r : Rect) : ℚ := r.width * r.height

/-- The QuiltShape record (lines 176-186).  Identifiers are the values of
the fresh-identifier counter. -/
structure QuiltShape where
  id : ℕ
  type : ShapeType
  color : String
  position : Rect
  parentId : Option ℕ
  contributorId : Option String
  submissionIndex : ℕ
  colorFamily : Option String
deriving DecidableEq, Repr

/-- QuiltShape.canSplit (lines 191-197). -/
def QuiltShape.canSplit (s : QuiltShape) (d : Direction) : Bool :=
  match d with
  | Direction.horizontal => decide (s.position.height ≥ MIN_SHAPE_SIZE * 2)
  | Direction.vertical => decide (s.position.width ≥ MIN_SHAPE_SIZE * 2)

/-- QuiltShape.getValidSplitDirections (lines 202-207); pushes horizontal
first. -/
def QuiltShape.getValidSplitDirections (s : QuiltShape) : List Direction :=
  (if s.canSplit Direction.horizontal then [Direction.horizontal] else []) ++
  (if s.canSplit Direction.vertical then [Direction.vertical] else [])

/-- `0.3 + Math.random() * 0.4` (line 217), with the draw `rr` explicit. -/
def splitFrac (rr : ℚ) : ℚ := 3 / 10 + rr * (4 / 10)

/-- The exceptions the engine can throw. -/
inductive JsError where
  | invalidColor : JsError
  | notSplittable : JsError
  | noValidDirection : JsError
  | noSuitableShape : JsError
  | typeError : JsError
deriving DecidableEq, Repr

/-- QuiltShape.split (lines 212-291).  The ratio draw `rr` and the two
fresh identifiers are explicit; the function is pure and returns two
freshly constructed shapes, leaving its receiver untouched. -/
def QuiltShape.split (s : QuiltShape) (newColor : String) (direction : Direction)
    (contributorId : Option String) (submissionIndex : ℕ)
    (rr : ℚ) (i1 i2 : ℕ) : Except JsError (QuiltShape × QuiltShape) :=
  if s.canSplit direction then
    match direction with
    | Direction.horizontal =>
      Except.ok
        ({ id := i1, type := s.type, color := s.color,
           position := { x := s.position.x, y := s.position.y,
                         width := s.position.width,
                         height := s.position.height * splitFrac rr },
           parentId := some s.id, contributorId := s.contributorId,
           submissionIndex := s.submissionIndex, colorFamily := s.colorFamily },
         { id := i2, type := s.type, color := newColor,
           position := { x := s.position.x,
                         y := s.position.y + s.position.height * splitFrac rr,
                         width := s.position.width,
                         height := s.position.height - s.position.height * splitFrac rr },
           parentId := some s.id, contributorId := contributorId,
           submissionIndex := submissionIndex, colorFamily := s.colorFamily })
    | Direction.vertical =>
      Except.ok
        ({ id := i1, type := s.type, color := s.color,
           position := { x := s.position.x, y := s.position.y,
                         width := s.position.width * splitFrac rr,
                         height := s.position.height },
           parentId := some s.id, contributorId := s.contributorId,
           submissionIndex := s.submissionIndex, colorFamily := s.colorFamily },
         { id := i2, type := s.type, color := newColor,
           position := { x := s.position.x + s.position.width * splitFrac rr,
                         y := s.position.y,
                         width := s.position.width - s.position.width * splitFrac rr,
                         height := s.position.height },
           parentId := some s.id, contributorId := contributorId,
           submissionIndex := submissionIndex, colorFamily := s.colorFamily })
  else Except.error JsError.notSplittable

/-- `'PRE_FREEZE' | 'POST_FREEZE'` (line 79). -/
inductive Phase where
  | preFreeze : Phase
  | postFreeze : Phase
deriving DecidableEq, Repr

/-- QuiltAppState (lines 76-83).  `colorFamilies` is the insertion-ordered
JavaScript Map as an association list. -/
structure QuiltAppState where
  submissionCount : ℕ
  phase : Phase
  keyShapesColorArray : List String
  shapes : List QuiltShape
  colorFamilies : List (String × List ℕ)
deriving DecidableEq, Repr

/-- JavaScript `Map.set`: overwrite in place when the key exists (keeping
its insertion position), otherwise append. -/
def setAssoc {α : Type} (m : List (String × α)) (k : String) (v : α) :
    List (String × α) :=
  if m.any fun p => p.1 == k then
    m.map fun p => if p.1 == k then (k, v) else p
  else m ++ [(k, v)]

/-- The inner `colors.forEach(otherColor => ...)` of
QuiltAppState.groupSimilarColors (lines 156-163): collect the similar,
still-unprocessed colors, marking them processed as they are consumed. -/
def collectSimilar (color : String) (colors : List String)
    (processed : List String) : List String × List String :=
  colors.foldl
    (fun (acc : List String × List String) otherColor =>
      if otherColor ≠ color ∧ ¬ acc.2.contains otherColor then
        if isColorSimilar color otherColor then
          (acc.1 ++ [otherColor], acc.2 ++ [otherColor])
        else acc
      else acc)
    ([color], processed)

/-- QuiltAppState.groupSimilarColors (lines 146-170).  The result Map is
keyed by the seed color's family name, so a later group with the same
family name overwrites an earlier one. -/
def groupSimilarColors (colors : List String) : List (String × List String) :=
  (colors.foldl
    (fun (st : List (String × List String) × List String) color =>
      if st.2.contains color then st
      else
        let familyName := getColorFamilyName color
        let stepRes := collectSimilar color colors st.2
        (setAssoc st.1 familyName stepRes.1, stepRes.2 ++ [color]))
    ([], [])).1

/-- One iteration of the `colorGroups.forEach` body of
QuiltAppState.assignColorFamilies (lines 125-138). -/
def assignFamilyGroup (st : QuiltAppState) (entry : String × List String) :
    QuiltAppState :=
  let familyShapes := st.shapes.filter fun shape =>
    entry.2.any fun color => isColorSimilar shape.color color
  { st with
    colorFamilies := setAssoc st.colorFamilies entry.1 (familyShapes.map fun s => s.id),
    shapes := st.shapes.map fun shape =>
      if entry.2.any fun color => isColorSimilar shape.color color then
        { shape with colorFamily := some entry.1 }
      else shape }

/-- QuiltAppState.assignColorFamilies (lines 122-141). -/
def assignColorFamilies (st : QuiltAppState) : QuiltAppState :=
  (groupSimilarColors st.keyShapesColorArray).foldl assignFamilyGroup st

/-- QuiltAppState.freezePhase (lines 102-117): flip the phase, relabel every
current shape as a key shape, capture the (unchanged) colors of the
relabeled shapes as the frozen reference array, then assign color
families. -/
def freezePhase (st : QuiltAppState) : QuiltAppState :=
  assignColorFamilies
    { st with
      phase := Phase.postFreeze,
      shapes := st.shapes.map fun s => { s with type := ShapeType.key },
      keyShapesColorArray :=
        (st.shapes.map fun s => { s with type := ShapeType.key }).map
          fun s => s.color }

/-- QuiltAppState.addSubmission (lines 88-97): returns the new count and the
(possibly frozen) state. -/
def addSubmission (st : QuiltAppState) : ℕ × QuiltAppState :=
  let st1 : QuiltAppState := { st with submissionCount := st.submissionCount + 1 }
  (st1.submissionCount,
   if st1.submissionCount = FREEZE_THRESHOLD then freezePhase st1 else st1)

/-- UserTracker.isDescendantOf (lines 460-473).  The source recursion has no
fuel; it terminates whenever the lineage is acyclic, and `fuel` at least the
number of live shapes plus one reproduces it exactly on acyclic inputs. -/
def isDescendantOf : ℕ → QuiltShape → List ℕ → List QuiltShape → Bool
  | 0, _, _, _ => false
  | fuel + 1, shape, ancestorIds, allShapes =>
    if ancestorIds.contains shape.id then true
    else
      match shape.parentId with
      | none => false
      | some pid =>
        match allShapes.find? fun s => decide (s.id = pid) with
        | none => false
        | some parent => isDescendantOf fuel parent ancestorIds allShapes

/-- UserTracker.findUserPieces (lines 437-455): the recorded contribution
shape ids play the role of the localStorage submissions. -/
def findUserPieces (shapes : List QuiltShape) (userShapeIds : List ℕ) :
    List QuiltShape :=
  shapes.filter fun s => isDescendantOf (shapes.length + 1) s userShapeIds shapes

/-- The engine object (lines 481-485) plus the modelled identifier counter
and the recorded contributions (UserTracker.recordContribution stores the
new shape's id per successful call). -/
structure EngineState where
  appState : QuiltAppState
  deviceId : String
  nextId : ℕ
  contributions : List ℕ
deriving DecidableEq, Repr

/-- QuiltEngine.initialize (lines 490-503): id from the fresh counter, all
QuiltShape constructor defaults (lines 177-186). -/
def initEngine (deviceId : String) : EngineState :=
  { appState :=
      { submissionCount := 0, phase := Phase.preFreeze, keyShapesColorArray := [],
        shapes := [{ id := 0, type := ShapeType.key, color := DEFAULT_COLOR,
                     position := { x := 0, y := 0, width := QUILT_SIZE, height := QUILT_SIZE },
                     parentId := none, contributorId := some deviceId,
                     submissionIndex := 0, colorFamily := none }],
        colorFamilies := [] },
    deviceId := deviceId, nextId := 1, contributions := [] }

/-- The explicit `Math.random()` draws one `addColor` call may consume:
`selRand` stands for `Math.floor(Math.random() * n)` as an arbitrary index
reduced mod `n`, `dirRand` for the direction-preference draw, `fracRand`
for the split-ratio draw, and `sideRand` for the border-side pick. -/
structure Oracle where
  selRand : ℕ
  dirRand : ℚ
  fracRand : ℚ
  sideRand : ℕ
deriving DecidableEq, Repr

/-- QuiltEngine.getRandomSplittableShape (lines 586-596); `none` models the
`null` returned when nothing is splittable. -/
def getRandomSplittableShape (shapes : List QuiltShape) (selRand : ℕ) :
    Option QuiltShape :=
  let splittableShapes := shapes.filter fun s => ! s.getValidSplitDirections.isEmpty
  splittableShapes.get? (selRand % splittableShapes.length)

/-- The shared fold of QuiltEngine.findMostSimilarKeyShape (lines 615-624)
and QuiltEngine.findMostSimilarBorderShape (lines 751-763): start from the
list's first element and keep the strictly closer color. -/
def foldMostSimilar (newColor : String) (first : QuiltShape)
    (l : List QuiltShape) : QuiltShape :=
  l.foldl
    (fun mostSimilar shape =>
      if diffLt (getColorDifference newColor shape.color)
          (getColorDifference newColor mostSimilar.color)
      then shape else mostSimilar)
    first

/-- QuiltEngine.findLargestBorderShape (lines 769-782). -/
def foldLargest (first : QuiltShape) (l : List QuiltShape) : QuiltShape :=
  l.foldl
    (fun largest shape =>
      if rectArea largest.position < rectArea shape.position then shape else largest)
    first

/-- The `keyShapes` filter of QuiltEngine.findMostSimilarKeyShape
(lines 603-607): splittable key shapes of the new color's family. -/
def keyShapeCandidates (app : QuiltAppState) (newColor : String) :
    List QuiltShape :=
  app.shapes.filter fun s =>
    decide (s.type = ShapeType.key) &&
    decide (s.colorFamily = some (getColorFamilyName newColor)) &&
    ! s.getValidSplitDirections.isEmpty

/-- QuiltEngine.findMostSimilarKeyShape (lines 601-627). -/
def findMostSimilarKeyShape (app : QuiltAppState) (newColor : String) :
    Option QuiltShape :=
  match keyShapeCandidates app newColor with
  | [] => none
  | first :: _ =>
    some (foldMostSimilar newColor first (keyShapeCandidates app newColor))

/-- `{top, right, bottom, left}` (line 665). -/
inductive Side where
  | top : Side
  | right : Side
  | bottom : Side
  | left : Side
deriving DecidableEq, Repr

/-- The bounds record QuiltEngine.getQuiltBounds returns (line 693). -/
structure Bounds where
  minX : ℚ
  minY : ℚ
  maxX : ℚ
  maxY : ℚ
deriving DecidableEq, Repr

def Bounds.width (b : Bounds) : ℚ := b.maxX - b.minX

def Bounds.height (b : Bounds) : ℚ := b.maxY - b.minY

/-- `Math.min(...)` over a spread list; the engine never takes bounds of an
empty shape list (initialize seeds one shape and shapes are only ever
replaced by at least as many), so the empty default is irrelevant. -/
def listMin (l : List ℚ) : ℚ :=
  match l with
  | [] => 0
  | a :: rest => rest.foldl min a

/-- `Math.max(...)` over a spread list; same remark as `listMin`. -/
def listMax (l : List ℚ) : ℚ :=
  match l with
  | [] => 0
  | a :: rest => rest.foldl max a

/-- QuiltEngine.getQuiltBounds (lines 686-694). -/
def getQuiltBounds (shapes : List QuiltShape) : Bounds :=
  { minX := listMin (shapes.map fun s => s.position.x)
    minY := listMin (shapes.map fun s => s.position.y)
    maxX := listMax (shapes.map fun s => s.position.x + s.position.width)
    maxY := listMax (shapes.map fun s => s.position.y + s.position.height) }

/-- The `position` switch of QuiltEngine.createBorderShapeForSide
(lines 700-734). -/
def borderPositionForSide (side : Side) (bounds : Bounds)
    (borderThickness : ℚ) : Rect :=
  match side with
  | Side.top =>
    { x := bounds.minX, y := bounds.minY - borderThickness,
      width := bounds.width, height := borderThickness }
  | Side.right =>
    { x := bounds.maxX, y := bounds.minY,
      width := borderThickness, height := bounds.height }
  | Side.bottom =>
    { x := bounds.minX, y := bounds.maxY,
      width := bounds.width, height := borderThickness }
  | Side.left =>
    { x := bounds.minX - borderThickness, y := bounds.minY,
      width := borderThickness, height := bounds.height }

/-- `this.userTracker.getCurrentUserId()` (line 741): the QuiltEngine
constructor (lines 482-485) assigns only `appState` and `deviceId`, so
`this.userTracker` is `undefined` and this property access throws a
TypeError before the shape constructor is reached. -/
def engineUserTrackerGetCurrentUserId : Except JsError Empty :=
  Except.error JsError.typeError

/-- QuiltEngine.createBorderShapeForSide (lines 699-744).  The `position`
switch is computed, then evaluation of the constructor's argument list
throws; the construction itself - which would moreover pass positional
arguments to the options-object constructor of QuiltShape - is never
reached. -/
def createBorderShapeForSide (side : Side) (bounds : Bounds)
    (_newColor : String) (borderThickness : ℚ) : Except JsError QuiltShape :=
  let _position := borderPositionForSide side bounds borderThickness
  match engineUserTrackerGetCurrentUserId with
  | Except.error e => Except.error e
  | Except.ok e => e.elim

/-- QuiltEngine.createNewBorderShape (lines 660-681).  On success the shape
would be pushed onto `appState.shapes`; that line is unreachable because
`createBorderShapeForSide` always throws. -/
def createNewBorderShape (st : EngineState) (newColor : String) (o : Oracle) :
    Except JsError QuiltShape :=
  let bounds := getQuiltBounds st.appState.shapes
  let selectedSide :=
    [Side.top, Side.right, Side.bottom, Side.left].getD (o.sideRand % 4) Side.top
  let borderThickness := min 40 (min bounds.width bounds.height * (1 / 10))
  match createBorderShapeForSide selectedSide bounds newColor borderThickness with
  | Except.error e => Except.error e
  | Except.ok borderShape => Except.ok borderShape

/-- The `borderShapes` filter of QuiltEngine.selectBorderShape
(lines 633-636): splittable border shapes. -/
def borderCandidates (st : EngineState) : List QuiltShape :=
  st.appState.shapes.filter fun s =>
    decide (s.type = ShapeType.border) && ! s.getValidSplitDirections.isEmpty

/-- QuiltEngine.selectBorderShape (lines 632-655). -/
def selectBorderShape (st : EngineState) (newColor : String) (o : Oracle) :
    Except JsError QuiltShape :=
  match borderCandidates st with
  | [] => createNewBorderShape st newColor o
  | first :: _ =>
    match (borderCandidates st).filter fun s => isColorSimilar newColor s.color with
    | [] => Except.ok (foldLargest first (borderCandidates st))
    | sFirst :: _ =>
      Except.ok (foldMostSimilar newColor sFirst
        ((borderCandidates st).filter fun s => isColorSimilar newColor s.color))

/-- QuiltEngine.selectShapeToSplit (lines 558-581).  `ok none` models the
`null` return of the pre-freeze branch. -/
def selectShapeToSplit (st : EngineState) (newColor : String) (o : Oracle) :
    Except JsError (Option QuiltShape) :=
  if st.appState.phase = Phase.preFreeze then
    Except.ok (getRandomSplittableShape st.appState.shapes o.selRand)
  else
    if st.appState.keyShapesColorArray.any fun keyColor =>
        isColorSimilar newColor keyColor then
      match findMostSimilarKeyShape st.appState newColor with
      | some keyShape => Except.ok (some keyShape)
      | none => (selectBorderShape st newColor o).map fun s => some s
    else (selectBorderShape st newColor o).map fun s => some s

/-- QuiltEngine.getSplitDirection (lines 787-808).  When both directions
are valid the preferred one is taken with probability 0.8; the `find` of
the other direction always succeeds on the two-element list, and the
unreachable `undefined` result would flow into split's `else` branch,
i.e. vertical. -/
def getSplitDirection (s : QuiltShape) (dirRand : ℚ) :
    Except JsError Direction :=
  match s.getValidSplitDirections with
  | [] => Except.error JsError.noValidDirection
  | [d] => Except.ok d
  | ds =>
    let preferredDirection :=
      if s.position.width > s.position.height then Direction.vertical
      else Direction.horizontal
    if dirRand < 4 / 5 then Except.ok preferredDirection
    else Except.ok ((ds.find? fun d => decide (d ≠ preferredDirection)).getD
      Direction.vertical)

/-- QuiltEngine.handlePostFreezeLogic (lines 813-826), applied to the new
child shape. -/
def handlePostFreezeLogic (app : QuiltAppState) (newShape : QuiltShape)
    (newColor : String) : QuiltShape :=
  if app.keyShapesColorArray.any fun keyColor => isColorSimilar newColor keyColor then
    { newShape with type := ShapeType.key,
                    colorFamily := some (getColorFamilyName newColor) }
  else { newShape with type := ShapeType.border }

/-- `shapes.splice(shapes.findIndex(s => s.id === id), 1, a, b)`
(lines 532-533): replace the first shape carrying the target id by the
replacement list.  The selected shape always comes from `appState.shapes`,
so the JavaScript `findIndex === -1` corner never happens; the model leaves
the list unchanged in that dead case. -/
def spliceById (shapes : List QuiltShape) (targetId : ℕ)
    (repl : List QuiltShape) : List QuiltShape :=
  match shapes with
  | [] => []
  | s :: rest =>
    if s.id = targetId then repl ++ rest
    else s :: spliceById rest targetId repl

/-- `tolerance = 0.1` (lines 853, 917, 943). -/
def tolerance : ℚ := 1 / 10

/-- The per-shape clamp of QuiltEngine.ensureNoGaps (lines 859-901):
bounds clamp with the already-updated coordinates, then the minimum-size
floor. -/
def clampShape (bounds : Bounds) (s : QuiltShape) : QuiltShape :=
  let x := if s.position.x < bounds.minX then bounds.minX else s.position.x
  let y := if s.position.y < bounds.minY then bounds.minY else s.position.y
  let w1 := if x + s.position.width > bounds.maxX + tolerance
            then bounds.maxX - x else s.position.width
  let h1 := if y + s.position.height > bounds.maxY + tolerance
            then bounds.maxY - y else s.position.height
  let w2 := if w1 < MIN_SHAPE_SIZE then MIN_SHAPE_SIZE else w1
  let h2 := if h1 < MIN_SHAPE_SIZE then MIN_SHAPE_SIZE else h1
  { s with position := { x := x, y := y, width := w2, height := h2 } }

/-- The body of the double loop of QuiltEngine.checkForOverlaps
(lines 990-1029) for one index pair `(i, j)`, `i < j`: on positive-area
overlap, shrink shape `j` along the axis with the larger overlap extent,
floored at the minimum size. -/
def overlapFix (shapes : List QuiltShape) (i j : ℕ) : List QuiltShape :=
  match shapes.get? i, shapes.get? j with
  | some shape1, some shape2 =>
    let overlapX := max 0
      (min (shape1.position.x + shape1.position.width)
           (shape2.position.x + shape2.position.width) -
       max shape1.position.x shape2.position.x)
    let overlapY := max 0
      (min (shape1.position.y + shape1.position.height)
           (shape2.position.y + shape2.position.height) -
       max shape1.position.y shape2.position.y)
    if overlapX > 0 ∧ overlapY > 0 then
      if overlapX > overlapY then
        shapes.set j { shape2 with position :=
          { shape2.position with
            width := max MIN_SHAPE_SIZE (shape2.position.width - overlapX) } }
      else
        shapes.set j { shape2 with position :=
          { shape2.position with
            height := max MIN_SHAPE_SIZE (shape2.position.height - overlapY) } }
    else shapes
  | _, _ => shapes

/-- The lexicographic index pairs `i < j` the double loop visits. -/
def pairIndices (n : ℕ) : List (ℕ × ℕ) :=
  (List.range n).flatMap fun i => ((List.range n).drop (i + 1)).map fun j => (i, j)

/-- QuiltEngine.checkForOverlaps (lines 986-1034). -/
def checkForOverlaps (shapes : List QuiltShape) : List QuiltShape :=
  (pairIndices shapes.length).foldl (fun acc ij => overlapFix acc ij.1 ij.2) shapes

/-- The right-edge half of the `forEach` body of QuiltEngine.fillGaps
(lines 947-962) at index `k`: expand a shape touching the right canvas
edge to the left bound when no other shape sits flush at its upper-left
corner. -/
def fillGapRight (bounds : Bounds) (shapes : List QuiltShape) (k : ℕ) :
    List QuiltShape :=
  match shapes.get? k with
  | none => shapes
  | some shape =>
    if |shape.position.x + shape.position.width - bounds.maxX| < tolerance then
      if (shapes.enum.filter fun p =>
          decide (p.1 ≠ k) &&
          decide (|p.2.position.y + p.2.position.height - shape.position.y| < tolerance) &&
          decide (|p.2.position.x + p.2.position.width - shape.position.x| < tolerance)).isEmpty
      then
        shapes.set k { shape with position :=
          { shape.position with
            x := bounds.minX
            width := shape.position.x + shape.position.width - bounds.minX } }
      else shapes
    else shapes

/-- The bottom-edge half of the same body (lines 964-979), reading the
object state left by the right-edge half. -/
def fillGapBottom (bounds : Bounds) (shapes : List QuiltShape) (k : ℕ) :
    List QuiltShape :=
  match shapes.get? k with
  | none => shapes
  | some shape =>
    if |shape.position.y + shape.position.height - bounds.maxY| < tolerance then
      if (shapes.enum.filter fun p =>
          decide (p.1 ≠ k) &&
          decide (|p.2.position.x + p.2.position.width - shape.position.x| < tolerance) &&
          decide (|p.2.position.y + p.2.position.height - shape.position.y| < tolerance)).isEmpty
      then
        shapes.set k { shape with position :=
          { shape.position with
            y := bounds.minY
            height := shape.position.y + shape.position.height - bounds.minY } }
      else shapes
    else shapes

/-- The full `forEach` body of QuiltEngine.fillGaps at index `k`. -/
def fillGapsStep (bounds : Bounds) (shapes : List QuiltShape) (k : ℕ) :
    List QuiltShape :=
  fillGapBottom bounds (fillGapRight bounds shapes k) k

/-- QuiltEngine.fillGaps (lines 941-981); the bounds are taken once at
entry. -/
def fillGaps (shapes : List QuiltShape) : List QuiltShape :=
  let bounds := getQuiltBounds shapes
  (List.range shapes.length).foldl (fillGapsStep bounds) shapes

/-- QuiltEngine.checkForGaps (lines 915-936): total area over bounds area
below 0.99 triggers the gap filler. -/
def checkForGaps (shapes : List QuiltShape) : List QuiltShape :=
  let bounds := getQuiltBounds shapes
  let totalShapeArea := shapes.foldl
    (fun acc s => acc + s.position.width * s.position.height) 0
  if totalShapeArea / (bounds.width * bounds.height) < 99 / 100 then
    fillGaps shapes
  else shapes

/-- QuiltEngine.ensureNoGaps (lines 851-910): clamp every shape against the
bounds taken at entry, then resolve overlaps, then check coverage. -/
def ensureNoGaps (shapes : List QuiltShape) : List QuiltShape :=
  let bounds := getQuiltBounds shapes
  checkForGaps (checkForOverlaps (shapes.map (clampShape bounds)))

/-- The value `addColor` returns on success (line 547). -/
structure AddResult where
  shape1 : QuiltShape
  shape2 : QuiltShape
  submissionIndex : ℕ
deriving DecidableEq, Repr

/-- QuiltEngine.addColor after color validation (lines 515-547).  Each
`Except.error` case returns alongside the partially mutated state, exactly
as the JavaScript throw leaves the mutation behind.  The post-freeze
relabeling of the new child (which the source performs on the object
already inserted into the array) is applied to the child before insertion;
the resulting array is identical. -/
def addColorValid (st : EngineState) (newColor : String) (o : Oracle) :
    Except JsError AddResult × EngineState :=
  let submissionIndex := (addSubmission st.appState).1
  let app1 := (addSubmission st.appState).2
  let st1 : EngineState := { st with appState := app1 }
  match selectShapeToSplit st1 newColor o with
  | Except.error e => (Except.error e, st1)
  | Except.ok none => (Except.error JsError.noSuitableShape, st1)
  | Except.ok (some selectedShape) =>
    match getSplitDirection selectedShape o.dirRand with
    | Except.error e => (Except.error e, st1)
    | Except.ok splitDirection =>
      match selectedShape.split newColor splitDirection (some st1.deviceId)
          submissionIndex o.fracRand st1.nextId (st1.nextId + 1) with
      | Except.error e => (Except.error e, st1)
      | Except.ok (shape1, shape2) =>
        let shape2f :=
          if app1.phase = Phase.postFreeze
          then handlePostFreezeLogic app1 shape2 newColor else shape2
        let newShapes := spliceById app1.shapes selectedShape.id [shape1, shape2f]
        (Except.ok { shape1 := shape1, shape2 := shape2f,
                     submissionIndex := submissionIndex },
         { appState := { app1 with shapes := ensureNoGaps newShapes },
           deviceId := st.deviceId,
           nextId := st.nextId + 2,
           contributions := st.contributions ++ [shape2f.id] })

/-- QuiltEngine.addColor (lines 508-553): color validation happens before
any mutation, so an invalid color leaves the state untouched. -/
def addColor (st : EngineState) (newColor : String) (o : Oracle) :
    Except JsError AddResult × EngineState :=
  if hexToRgb newColor = none then (Except.error JsError.invalidColor, st)
  else addColorValid st newColor o

/-- One serialized call: the state after `addColor`, successful or not. -/
structure CallInput where
  color : String
  oracle : Oracle
deriving DecidableEq, Repr

def step (st : EngineState) (inp : CallInput) : EngineState :=
  (addColor st inp.color inp.oracle).2

def runTrace (st : EngineState) (l : List CallInput) : EngineState :=
  l.foldl step st

/-- The freeze transformation runs in a call exactly when the color is
valid and the pre-call count is one below the threshold. -/
def freezeTriggered (st : EngineState) (inp : CallInput) : Bool :=
  decide (hexToRgb inp.color ≠ none) &&
  decide (st.appState.submissionCount + 1 = FREEZE_THRESHOLD)

/-- How many calls of a trace run the freeze transformation. -/
def freezeSteps : EngineState → List CallInput → ℕ
  | _, [] => 0
  | st, inp :: rest =>
    (if freezeTriggered st inp then 1 else 0) + freezeSteps (step st inp) rest

/-- Whether an `Except` result is a success. -/
def isOkB {ε α : Type} : Except ε α → Bool
  | Except.ok _ => true
  | Except.error _ => false

/-- Every field of a shape except its rectangle; the whole repair pass
(`ensureNoGaps`) only ever rewrites rectangles, so it preserves this
projection pointwise. -/
def shapeMeta (s : QuiltShape) :
    ℕ × ShapeType × String × Option ℕ × Option String × ℕ × Option String :=
  (s.id, s.type, s.color, s.parentId, s.contributorId, s.submissionIndex,
   s.colorFamily)

/-- The identifier, lineage pointer, color and rectangle of a shape; the
freeze transformation only rewrites roles and family labels, so it
preserves this projection pointwise. -/
def shapeCore (s : QuiltShape) : ℕ × Option ℕ × String × Rect :=
  (s.id, s.parentId, s.color, s.position)

/-- Just the identifier and the lineage pointer of a shape; preserved by
both the repair pass and the freeze transformation. -/
def shapeIdp (s : QuiltShape) : ℕ × Option ℕ := (s.id, s.parentId)

/-- The identifier/lineage well-formedness invariant of a live tile list
with respect to the fresh-identifier counter `n`: all identifiers and all
parent references are below the counter, identifiers are pairwise
distinct, and no live tile's parent reference names a live tile. -/
def shapesGood (l : List QuiltShape) (n : ℕ) : Prop :=
  (∀ t ∈ l, t.id < n) ∧
  (∀ t ∈ l, ∀ p, t.parentId = some p → p < n) ∧
  (l.map fun s => s.id).Nodup ∧
  (∀ t ∈ l, ∀ p, t.parentId = some p → ∀ u ∈ l, u.id ≠ p)

/-- The engine-level lineage invariant of claim C9. -/
def GoodState (st : EngineState) : Prop :=
  shapesGood st.appState.shapes st.nextId

/-! ### Concrete instances used by individual claims -/

/-- First call of the schedule driving claim C1's failing run: split the
seed vertically at fraction 0.35 (draws: shape index 0, direction draw 0.9
forcing the non-preferred vertical direction, ratio draw 1/8). -/
def c1Input1 : CallInput := { color := "#ff0000", oracle := ⟨0, 9 / 10, 1 / 8, 0⟩ }

/-- Second call: split the 350-wide strip vertically at fraction 0.30. -/
def c1Input2 : CallInput := { color := "#00ff00", oracle := ⟨0, 9 / 10, 0, 0⟩ }

/-- Third call's draws: split the 105-wide strip vertically at fraction
0.30, producing a 31.5-wide child below the 40-pixel minimum. -/
def c1Oracle3 : Oracle := ⟨0, 9 / 10, 0, 0⟩

def c1StateBefore : EngineState :=
  runTrace (initEngine "device-a") [c1Input1, c1Input2]

def c1Call3 : Except JsError AddResult × EngineState :=
  addColor c1StateBefore "#0000ff" c1Oracle3

/-- A live tile whose parent (id 2) has been superseded and removed from
the live collection, as every split leaves behind; id 2 is the recorded
contribution of the contributor under claim C6. -/
def c6Orphan : QuiltShape :=
  { id := 3, type := ShapeType.key, color := "#ff0000",
    position := { x := 0, y := 0, width := 500, height := 1000 },
    parentId := some 2, contributorId := some "someone-else",
    submissionIndex := 9, colorFamily := none }

/-- A tile whose own id is recorded, for the amended claim C6. -/
def c6Own : QuiltShape :=
  { id := 3, type := ShapeType.key, color := "#ff0000",
    position := { x := 0, y := 0, width := 500, height := 1000 },
    parentId := some 2, contributorId := some "dev",
    submissionIndex := 9, colorFamily := none }

/-- A frozen state holding one full-canvas key tile of the default color,
instantiating claim C2's scenario (post-freeze, no border tile). -/
def c2State : EngineState :=
  { appState :=
      { submissionCount := 20, phase := Phase.postFreeze,
        keyShapesColorArray := ["#f7b733"],
        shapes := [{ id := 0, type := ShapeType.key, color := "#f7b733",
                     position := { x := 0, y := 0, width := QUILT_SIZE, height := QUILT_SIZE },
                     parentId := none, contributorId := some "dev",
                     submissionIndex := 0, colorFamily := some "orange" }],
        colorFamilies := [("orange", [0])] },
    deviceId := "dev", nextId := 1, contributions := [] }

/-- A pre-freeze state one submission below the freeze threshold,
instantiating claim C4's freezing call. -/
def c4State19 : EngineState :=
  { appState :=
      { submissionCount := 19, phase := Phase.preFreeze,
        keyShapesColorArray := [],
        shapes := [{ id := 0, type := ShapeType.key, color := DEFAULT_COLOR,
                     position := { x := 0, y := 0, width := QUILT_SIZE, height := QUILT_SIZE },
                     parentId := none, contributorId := some "dev",
                     submissionIndex := 0, colorFamily := none }],
        colorFamilies := [] },
    deviceId := "dev", nextId := 1, contributions := [] }

/-- A clean halving call used by the witnesses of claims C8 and C9. -/
def halfInput : CallInput := { color := "#ff0000", oracle := ⟨0, 0, 1 / 2, 0⟩ }

/-- Second clean call for the claim C8 witness. -/
def halfInput2 : CallInput := { color := "#00ff00", oracle := ⟨0, 0, 1 / 2, 0⟩ }

/-- The top child produced by running `halfInput` from the initialized
engine: the seed keeps the top half, ids 1 and 2 are fresh, both children
point back at the removed seed tile id 0. -/
def c9Child : QuiltShape :=
  { id := 1, type := ShapeType.key, color := DEFAULT_COLOR,
    position := { x := 0, y := 0, width := QUILT_SIZE, height := QUILT_SIZE / 2 },
    parentId := some 0, contributorId := some "dev",
    submissionIndex := 0, colorFamily := none }

/-- The key-shape state feeding claim C10: two mutually dissimilar reds
captured at freeze time. -/
def c10App : QuiltAppState :=
  { submissionCount := 20, phase := Phase.postFreeze,
    keyShapesColorArray := ["#ff0000", "#800000"],
    shapes := [{ id := 0, type := ShapeType.key, color := "#ff0000",
                 position := { x := 0, y := 0, width := 500, height := 1000 },
                 parentId := none, contributorId := some "dev",
                 submissionIndex := 0, colorFamily := none },
               { id := 1, type := ShapeType.key, color := "#800000",
                 position := { x := 500, y := 0, width := 500, height := 1000 },
                 parentId := none, contributorId := some "dev",
                 submissionIndex := 0, colorFamily := none }],
    colorFamilies := [] }

/-- The seed tile, used by the claim C3 witness. -/
def seedShape : QuiltShape :=
  { id := 0, type := ShapeType.key, color := DEFAULT_COLOR,
    position := { x := 0, y := 0, width := QUILT_SIZE, height := QUILT_SIZE },
    parentId := none, contributorId := some "dev",
    submissionIndex := 0, colorFamily := none }

/-! ### Shared lemmas -/

theorem familyBandChain_ne_gray (h : ℤ) : familyBandChain h ≠ "gray" := by
  unfold familyBandChain
  split_ifs <;> decide

theorem familyBandSpec_ne_gray (h : ℤ) : familyBandSpec h ≠ "gray" := by
  unfold familyBandSpec
  split_ifs <;> decide

theorem familyBandChain_eq_spec (h : ℤ) : familyBandChain h = familyBandSpec h := rfl

theorem jsRem_small {x : ℚ} (hl : -1 ≤ x) (hr : x ≤ 1) : jsRem x 6 = x := by
  have h6 : (0:ℚ) < 6 := by norm_num
  have h1 : x / 6 ≤ 1 / 6 := by gcongr
  have h2 : (-1 : ℚ) / 6 ≤ x / 6 := by gcongr
  unfold jsRem ratTrunc
  by_cases h : 0 ≤ x / 6
  · rw [if_pos h]
    have h0 : ⌊x / 6⌋ = 0 := by
      rw [Int.floor_eq_zero_iff, Set.mem_Ico]
      exact ⟨h, by linarith⟩
    rw [h0]
    push_cast
    ring
  · rw [if_neg h]
    have h0 : ⌊-(x / 6)⌋ = 0 := by
      rw [Int.floor_eq_zero_iff, Set.mem_Ico]
      constructor
      · linarith [not_le.mp h]
      · linarith
    rw [h0]
    push_cast
    ring

theorem minChan_le_maxChan (c : Rgb) : minChan c ≤ maxChan c :=
  le_trans (min_le_left _ _) (le_max_left _ _)

theorem hueRawCode_eq_spec (c : Rgb) (hne : maxChan c - minChan c ≠ 0) :
    hueRawCode c = hueRawSpec c := by
  have hlt : minChan c < maxChan c :=
    lt_of_le_of_ne (minChan_le_maxChan c) (fun he => hne (by omega))
  have hδ : (0 : ℚ) < (maxChan c : ℚ) - minChan c := by
    rw [sub_pos]
    exact_mod_cast hlt
  unfold hueRawCode hueRawSpec
  by_cases hr : maxChan c = c.r
  · rw [if_pos hr, if_pos hr]
    have hg1 : (c.g : ℚ) ≤ maxChan c := by
      exact_mod_cast le_trans (le_max_left c.g c.b) (le_max_right c.r _)
    have hb1 : (minChan c : ℚ) ≤ c.b := by
      exact_mod_cast le_trans (min_le_right c.r _) (min_le_right c.g c.b)
    have hg2 : (minChan c : ℚ) ≤ c.g := by
      exact_mod_cast le_trans (min_le_right c.r _) (min_le_left c.g c.b)
    have hb2 : (c.b : ℚ) ≤ maxChan c := by
      exact_mod_cast le_trans (le_max_right c.g c.b) (le_max_right c.r _)
    apply jsRem_small
    · rw [le_div_iff₀ hδ]
      linarith
    · rw [div_le_one hδ]
      linarith
  · rw [if_neg hr, if_neg hr]

theorem hueCode_eq_hueDegOf (c : Rgb) (hne : maxChan c - minChan c ≠ 0) :
    hueCode c = hueDegOf c := by
  unfold hueCode hueDegOf
  rw [hueRawCode_eq_spec c hne]

/-- Claim C5 is refuted: the colors (128,255,0) and (0,255,123) both land
in the `green` family although their code-computed hues are 90 and 149,
which are 59 degrees apart - no fixed 30 degree wide hue band contains
both, so the bucketing does not use fixed 30 degree wide bands. -/
theorem c5_thirty_degree_bands_false : ¬ familyBands30 := by
  intro h
  have h2 := h ⟨128, 255, 0⟩ ⟨0, 255, 123⟩ (by decide) (by decide)
  revert h2
  decide

/-- Claim C5 (amended): `familyLabel` returns gray exactly when saturation
(max channel minus min channel) is 0, and otherwise buckets the hue into
one of the eight chromatic labels using the bands red [0,30),
orange [30,60), yellow [60,90), green [90,150), cyan [150,210),
blue [210,270), purple [270,330), pink [330,360) - 30 degrees wide for
red, orange, yellow and pink, 60 degrees wide for green, cyan, blue and
purple; the function is deterministic and total on valid colors. -/
theorem c5_family_label (c : Rgb) :
    (familyOfRgb c = "gray" ↔ maxChan c - minChan c = 0) ∧
    (maxChan c - minChan c ≠ 0 →
      familyOfRgb c = familyBandSpec (hueDegOf c) ∧
      familyBandSpec (hueDegOf c) ≠ "gray") := by
  constructor
  · by_cases hδ : maxChan c - minChan c = 0
    · simp [familyOfRgb, hδ]
    · simp [familyOfRgb, hδ, familyBandChain_ne_gray]
  · intro hδ
    refine ⟨?_, familyBandSpec_ne_gray _⟩
    unfold familyOfRgb
    rw [if_neg hδ, hueCode_eq_hueDegOf c hδ, familyBandChain_eq_spec]

/-- Witness for `c5_family_label` at the pure red color (hue 0). -/
theorem c5_family_label_witness :
    maxChan ⟨255, 0, 0⟩ - minChan ⟨255, 0, 0⟩ ≠ 0 ∧
    familyOfRgb ⟨255, 0, 0⟩ = familyBandSpec (hueDegOf ⟨255, 0, 0⟩) ∧
    familyOfRgb ⟨255, 0, 0⟩ = "red" := by
  refine ⟨by decide, ((c5_family_label ⟨255, 0, 0⟩).2 (by decide)).1, by decide⟩

set_option maxRecDepth 100000 in
/-- Claim C1 is violated by the code: starting from `initialize`, the three
successful `addColor` calls of the schedule `c1Input1, c1Input2, c1Oracle3`
(each call splits the leftmost splittable strip vertically; the third split
produces a 31.5-wide child, which the repair pass widens to the 40 minimum,
whose overlap resolution then shrinks the sibling's height from 1000 to 40,
and whose gap filler finally inflates the border strip to the full canvas)
return successfully but leave the live tiles 0 and 3 overlapping on a
positive-area region: the point (10, 500) lies strictly inside both.  The
union of the live tiles is therefore not an exact partition of the canvas
bounds after a successful `addColor` returns. -/
theorem c1_coverage_invariant_fails :
    isOkB c1Call3.1 = true ∧
    (c1Call3.2.appState.shapes.map fun s => s.position).get? 0 =
      some { x := 0, y := 0, width := 40, height := 1000 } ∧
    (c1Call3.2.appState.shapes.map fun s => s.position).get? 3 =
      some { x := 0, y := 0, width := 1000, height := 1000 } ∧
    interiorMemRect (10, 500) { x := 0, y := 0, width := 40, height := 1000 } ∧
    interiorMemRect (10, 500) { x := 0, y := 0, width := 1000, height := 1000 } := by
  refine ⟨by decide, by decide, by decide, by decide, by decide⟩

/-- Claim C6 is refuted: a live tile whose `parentId` names a recorded but
superseded (hence no longer live) ancestor is not returned by
`findUserPieces`, because the walk looks the parent up in the live
collection and stops with a negative answer when the lookup fails. -/
theorem c6_dead_parent_excluded :
    c6Orphan.parentId = some 2 ∧
    findUserPieces [c6Orphan] [2] = [] := by
  exact ⟨by decide, by decide⟩

/-- Claim C6 (amended): `findContributorTiles` returns exactly the live
tiles whose `parentId` chain, walked through tiles still present in the
live collection and stopping as soon as a parent is absent, reaches a tile
whose id was recorded for the contributor.  In every engine-reachable state
a split removes the parent from the live collection, so the walk never
advances past the tile itself and the result is exactly the set of live
tiles whose own id was recorded; live descendants of a superseded recorded
tile are not included. -/
theorem isDescendantOf_succ (fuel : ℕ) (shape : QuiltShape) (ids : List ℕ)
    (allShapes : List QuiltShape) :
    isDescendantOf (fuel + 1) shape ids allShapes =
      (if ids.contains shape.id then true
       else
         match shape.parentId with
         | none => false
         | some pid =>
           match allShapes.find? fun s => decide (s.id = pid) with
           | none => false
           | some parent => isDescendantOf fuel parent ids allShapes) := rfl

theorem c6_find_contributor_tiles (shapes : List QuiltShape) (ids : List ℕ)
    (hdead : ∀ t ∈ shapes, ∀ p, t.parentId = some p → ∀ u ∈ shapes, u.id ≠ p) :
    findUserPieces shapes ids = shapes.filter fun s => ids.contains s.id := by
  unfold findUserPieces
  apply List.filter_congr
  intro s hs
  show isDescendantOf (shapes.length + 1) s ids shapes = ids.contains s.id
  rw [isDescendantOf_succ]
  cases hcont : ids.contains s.id
  · rw [if_neg (by simp)]
    cases hp : s.parentId with
    | none => rfl
    | some pid =>
      have hfind : (shapes.find? fun u => decide (u.id = pid)) = none := by
        rw [List.find?_eq_none]
        intro u hu
        simpa using hdead s hs pid hp u hu
      simp [hfind]
  · rw [if_pos (by simp [hcont])]

/-- Witness for `c6_find_contributor_tiles`: a tile whose own id 3 is
recorded is returned even though its parent id 2 is no longer live. -/
theorem c6_find_contributor_tiles_witness :
    findUserPieces [c6Own] [3] = [c6Own] := by
  have h := c6_find_contributor_tiles [c6Own] [3] (by decide)
  rw [h]
  decide

/-- Claim C7 is refuted: on the unparseable color `"xyz"` the difference
function returns the ordinary JavaScript number `Infinity` - a silent
sentinel every comparison treats as a value (for instance the similarity
comparison below evaluates to `false`) - instead of failing with an
InvalidColor error. -/
theorem c7_invalid_color_silent_infinity :
    hexToRgb "xyz" = none ∧
    getColorDifference "xyz" "#000000" = ColorDiff.infinity ∧
    diffLe35 ColorDiff.infinity = false := by
  exact ⟨by decide, by decide, by decide⟩

theorem hexVal_le (ch : Char) (n : ℕ) (h : hexVal ch = some n) : n ≤ 15 := by
  unfold hexVal at h
  split_ifs at h with h1 h2 h3 <;> injection h with h' <;> omega

theorem hexPair_le (u v : Char) (n : ℕ) (h : hexPair u v = some n) : n ≤ 255 := by
  unfold hexPair at h
  cases hu : hexVal u with
  | none => rw [hu] at h; cases h
  | some nu =>
    cases hv : hexVal v with
    | none => rw [hu, hv] at h; cases h
    | some nv =>
      rw [hu, hv] at h
      injection h with h'
      have := hexVal_le u nu hu
      have := hexVal_le v nv hv
      omega

theorem parseHex6_channels (l : List Char) (c : Rgb) (h : parseHex6 l = some c) :
    c.r ≤ 255 ∧ c.g ≤ 255 ∧ c.b ≤ 255 := by
  unfold parseHex6 at h
  split at h
  · rename_i a1 a2 a3 a4 a5 a6
    split at h
    · rename_i r g b hr hg hb
      injection h with h'
      subst h'
      exact ⟨hexPair_le _ _ _ hr, hexPair_le _ _ _ hg, hexPair_le _ _ _ hb⟩
    · cases h
  · cases h

theorem hexToRgb_channels (s : String) (c : Rgb) (h : hexToRgb s = some c) :
    c.r ≤ 255 ∧ c.g ≤ 255 ∧ c.b ≤ 255 := by
  unfold hexToRgb at h
  split at h
  · exact parseHex6_channels _ _ h
  · exact parseHex6_channels _ _ h

theorem sq_diff_le (x y : ℤ) (hx0 : 0 ≤ x) (hx : x ≤ 255) (hy0 : 0 ≤ y)
    (hy : y ≤ 255) : (x - y) ^ 2 ≤ 65025 := by
  have h1 : x - y ≤ 255 := by omega
  have h2 : -255 ≤ x - y := by omega
  calc (x - y) ^ 2 ≤ 255 ^ 2 := sq_le_sq' h2 h1
  _ = 65025 := by norm_num

/-- Claim C7 (amended): for valid colors the difference is the Euclidean
RGB distance, a number in [0, 441.7] (its exact square is at most
195075 = 3 * 255², which is below 441.7²); for an invalid color the
function returns the sentinel `Infinity` rather than failing with an
error. -/
theorem c7_distance (c1 c2 : String) (a b : Rgb) :
    (hexToRgb c1 = some a → hexToRgb c2 = some b →
      getColorDifference c1 c2 = ColorDiff.val (dsqOf a b) ∧
      0 ≤ dsqOf a b ∧ dsqOf a b ≤ 195075 ∧
      ((dsqOf a b : ℚ) ≤ (4417 / 10) ^ 2)) ∧
    (hexToRgb c1 = none ∨ hexToRgb c2 = none →
      getColorDifference c1 c2 = ColorDiff.infinity) := by
  constructor
  · intro h1 h2
    obtain ⟨har, hag, hab⟩ := hexToRgb_channels c1 a h1
    obtain ⟨hbr, hbg, hbb⟩ := hexToRgb_channels c2 b h2
    have hub : dsqOf a b ≤ 195075 := by
      unfold dsqOf
      have e1 := sq_diff_le (a.r : ℤ) (b.r : ℤ) (by positivity)
        (by exact_mod_cast har) (by positivity) (by exact_mod_cast hbr)
      have e2 := sq_diff_le (a.g : ℤ) (b.g : ℤ) (by positivity)
        (by exact_mod_cast hag) (by positivity) (by exact_mod_cast hbg)
      have e3 := sq_diff_le (a.b : ℤ) (b.b : ℤ) (by positivity)
        (by exact_mod_cast hab) (by positivity) (by exact_mod_cast hbb)
      linarith
    refine ⟨?_, ?_, hub, ?_⟩
    · unfold getColorDifference
      rw [h1, h2]
    · unfold dsqOf
      positivity
    · have : ((dsqOf a b : ℚ)) ≤ (195075 : ℚ) := by exact_mod_cast hub
      calc ((dsqOf a b : ℚ)) ≤ (195075 : ℚ) := this
      _ ≤ (4417 / 10) ^ 2 := by norm_num
  · intro h
    unfold getColorDifference
    rcases h with h | h
    · rw [h]
    · rw [h]
      cases hexToRgb c1 <;> rfl

/-- Witness for `c7_distance` on pure red against black: the exact squared
distance is 255² = 65025. -/
theorem c7_distance_witness :
    getColorDifference "#ff0000" "#000000" =
      ColorDiff.val (dsqOf ⟨255, 0, 0⟩ ⟨0, 0, 0⟩) ∧
    dsqOf ⟨255, 0, 0⟩ ⟨0, 0, 0⟩ ≤ 195075 := by
  have h := (c7_distance "#ff0000" "#000000" ⟨255, 0, 0⟩ ⟨0, 0, 0⟩).1
    (by decide) (by decide)
  exact ⟨h.1, h.2.2.1⟩

/-- Claim C3: `split` fails with NotSplittable exactly when `canSplit` is
false for the requested direction (extent below 2 × MIN_SIZE); otherwise it
returns two fresh tiles that exactly partition the input rectangle (their
union is the input rectangle, their interiors are disjoint, their areas
add up), with the split fraction `0.3 + 0.4·rr` in [0.30, 0.70] for any
legal draw `rr ∈ [0, 1)`, tileA being the top (horizontal) or left
(vertical) portion keeping the original color, tileB carrying the new
color, the new contributor and submission index, and `parentId = tile.id`.
The embedding is pure, so the input tile is returned unchanged by
construction. -/
theorem c3_split_operator (s : QuiltShape) (newColor : String) (d : Direction)
    (cid : Option String) (si : ℕ) (rr : ℚ) (i1 i2 : ℕ)
    (h0 : 0 ≤ rr) (h1 : rr < 1) :
    (s.canSplit d = false ↔
      s.split newColor d cid si rr i1 i2 = Except.error JsError.notSplittable) ∧
    (s.canSplit d = true →
      ∃ A B, s.split newColor d cid si rr i1 i2 = Except.ok (A, B) ∧
        A.color = s.color ∧ B.color = newColor ∧
        A.parentId = some s.id ∧ B.parentId = some s.id ∧
        A.id = i1 ∧ B.id = i2 ∧
        B.contributorId = cid ∧ B.submissionIndex = si ∧
        3 / 10 ≤ splitFrac rr ∧ splitFrac rr ≤ 7 / 10 ∧
        (d = Direction.horizontal →
          A.position = { x := s.position.x, y := s.position.y,
                         width := s.position.width,
                         height := s.position.height * splitFrac rr } ∧
          B.position = { x := s.position.x,
                         y := s.position.y + s.position.height * splitFrac rr,
                         width := s.position.width,
                         height := s.position.height - s.position.height * splitFrac rr }) ∧
        (d = Direction.vertical →
          A.position = { x := s.position.x, y := s.position.y,
                         width := s.position.width * splitFrac rr,
                         height := s.position.height } ∧
          B.position = { x := s.position.x + s.position.width * splitFrac rr,
                         y := s.position.y,
                         width := s.position.width - s.position.width * splitFrac rr,
                         height := s.position.height }) ∧
        (∀ p : ℚ × ℚ,
          (memRect p A.position ∨ memRect p B.position) ↔ memRect p s.position) ∧
        (∀ p : ℚ × ℚ,
          ¬ (interiorMemRect p A.position ∧ interiorMemRect p B.position)) ∧
        rectArea A.position + rectArea B.position = rectArea s.position) := by
  have hfrac_lo : 3 / 10 ≤ splitFrac rr := by
    unfold splitFrac
    nlinarith
  have hfrac_hi : splitFrac rr ≤ 7 / 10 := by
    unfold splitFrac
    nlinarith
  cases hcs : s.canSplit d with
  | false =>
    have herr : s.split newColor d cid si rr i1 i2 =
        Except.error JsError.notSplittable := by
      unfold QuiltShape.split
      rw [hcs]
      rfl
    exact ⟨⟨fun _ => herr, fun _ => rfl⟩, fun ht => absurd ht (by simp)⟩
  | true =>
    refine ⟨⟨fun hf => absurd hf (by decide), fun he => ?_⟩, fun _ => ?_⟩
    all_goals cases d with
    | horizontal =>
      first
      | (unfold QuiltShape.split at he
         rw [hcs] at he
         simp at he)
      | (have hh : s.position.height ≥ MIN_SHAPE_SIZE * 2 := by
           unfold QuiltShape.canSplit at hcs
           exact of_decide_eq_true hcs
         have hh80 : s.position.height ≥ 80 := by
           unfold MIN_SHAPE_SIZE at hh
           linarith
         have hq0 : 0 ≤ s.position.height * splitFrac rr := by
           apply mul_nonneg <;> linarith
         have hql : s.position.height * splitFrac rr ≤ s.position.height := by
           apply mul_le_of_le_one_right <;> linarith
         have hok : s.split newColor Direction.horizontal cid si rr i1 i2 =
             Except.ok
               ({ id := i1, type := s.type, color := s.color,
                  position := { x := s.position.x, y := s.position.y,
                                width := s.position.width,
                                height := s.position.height * splitFrac rr },
                  parentId := some s.id, contributorId := s.contributorId,
                  submissionIndex := s.submissionIndex, colorFamily := s.colorFamily },
                { id := i2, type := s.type, color := newColor,
                  position := { x := s.position.x,
                                y := s.position.y + s.position.height * splitFrac rr,
                                width := s.position.width,
                                height := s.position.height -
                                  s.position.height * splitFrac rr },
                  parentId := some s.id, contributorId := cid,
                  submissionIndex := si, colorFamily := s.colorFamily }) := by
           unfold QuiltShape.split
           rw [hcs]
           rfl
         refine ⟨_, _, hok, rfl, rfl, rfl, rfl, rfl, rfl, rfl, rfl,
           hfrac_lo, hfrac_hi, fun _ => ⟨rfl, rfl⟩, fun hv => absurd hv (by decide),
           ?_, ?_, by unfold rectArea; dsimp only; ring⟩
         · intro p
           unfold memRect
           dsimp only
           constructor
           · rintro (⟨ha1, ha2, ha3, ha4⟩ | ⟨hb1, hb2, hb3, hb4⟩) <;>
               refine ⟨by linarith, by linarith, by linarith, by linarith⟩
           · rintro ⟨hs1, hs2, hs3, hs4⟩
             by_cases hp : p.2 ≤ s.position.y + s.position.height * splitFrac rr
             · exact Or.inl ⟨hs1, hs2, hs3, hp⟩
             · exact Or.inr ⟨hs1, hs2, by linarith [not_le.mp hp], by linarith⟩
         · rintro p ⟨⟨_, _, _, hA⟩, ⟨_, _, hB, _⟩⟩
           dsimp only at hA hB
           linarith)
    | vertical =>
      first
      | (unfold QuiltShape.split at he
         rw [hcs] at he
         simp at he)
      | (have hw : s.position.width ≥ MIN_SHAPE_SIZE * 2 := by
           unfold QuiltShape.canSplit at hcs
           exact of_decide_eq_true hcs
         have hw80 : s.position.width ≥ 80 := by
           unfold MIN_SHAPE_SIZE at hw
           linarith
         have hq0 : 0 ≤ s.position.width * splitFrac rr := by
           apply mul_nonneg <;> linarith
         have hql : s.position.width * splitFrac rr ≤ s.position.width := by
           apply mul_le_of_le_one_right <;> linarith
         have hok : s.split newColor Direction.vertical cid si rr i1 i2 =
             Except.ok
               ({ id := i1, type := s.type, color := s.color,
                  position := { x := s.position.x, y := s.position.y,
                                width := s.position.width * splitFrac rr,
                                height := s.position.height },
                  parentId := some s.id, contributorId := s.contributorId,
                  submissionIndex := s.submissionIndex, colorFamily := s.colorFamily },
                { id := i2, type := s.type, color := newColor,
                  position := { x := s.position.x + s.position.width * splitFrac rr,
                                y := s.position.y,
                                width := s.position.width -
                                  s.position.width * splitFrac rr,
                                height := s.position.height },
                  parentId := some s.id, contributorId := cid,
                  submissionIndex := si, colorFamily := s.colorFamily }) := by
           unfold QuiltShape.split
           rw [hcs]
           rfl
         refine ⟨_, _, hok, rfl, rfl, rfl, rfl, rfl, rfl, rfl, rfl,
           hfrac_lo, hfrac_hi, fun hv => absurd hv (by decide), fun _ => ⟨rfl, rfl⟩,
           ?_, ?_, by unfold rectArea; dsimp only; ring⟩
         · intro p
           unfold memRect
           dsimp only
           constructor
           · rintro (⟨ha1, ha2, ha3, ha4⟩ | ⟨hb1, hb2, hb3, hb4⟩) <;>
               refine ⟨by linarith, by linarith, by linarith, by linarith⟩
           · rintro ⟨hs1, hs2, hs3, hs4⟩
             by_cases hp : p.1 ≤ s.position.x + s.position.width * splitFrac rr
             · exact Or.inl ⟨hs1, hp, hs3, hs4⟩
             · exact Or.inr ⟨by linarith [not_le.mp hp], by linarith, hs3, hs4⟩
         · rintro p ⟨⟨_, hA, _, _⟩, ⟨hB, _, _, _⟩⟩
           dsimp only at hA hB
           linarith)

/-- Witness for `c3_split_operator`: the seed tile splits horizontally at
the draw 1/2 (fraction 0.5). -/
theorem c3_split_operator_witness :
    (0 : ℚ) ≤ 1 / 2 ∧ (1 / 2 : ℚ) < 1 ∧
    seedShape.canSplit Direction.horizontal = true ∧
    isOkB (seedShape.split "#ff0000" Direction.horizontal (some "dev") 1
      (1 / 2) 1 2) = true := by
  refine ⟨by norm_num, by norm_num, by decide, ?_⟩
  obtain ⟨A, B, hok, _⟩ :=
    (c3_split_operator seedShape "#ff0000" Direction.horizontal (some "dev") 1
      (1 / 2) 1 2 (by norm_num) (by norm_num)).2 (by decide)
  rw [hok]
  rfl

theorem map_set_pres {α : Type} (f : QuiltShape → α) :
    ∀ (l : List QuiltShape) (j : ℕ) (x : QuiltShape),
      (∀ y, l.get? j = some y → f x = f y) →
      (l.set j x).map f = l.map f := by
  intro l
  induction l with
  | nil => intro j x _; rfl
  | cons a l ih =>
    intro j x h
    cases j with
    | zero =>
      have hx : f x = f a := h a rfl
      simp [List.set, hx]
    | succ j =>
      simp only [List.set, List.map_cons]
      rw [ih j x fun y hy => h y hy]

theorem foldl_map_pres {α ι : Type} (f : QuiltShape → α)
    (step : List QuiltShape → ι → List QuiltShape)
    (hstep : ∀ acc i, (step acc i).map f = acc.map f) :
    ∀ (L : List ι) (init : List QuiltShape),
      (L.foldl step init).map f = init.map f := by
  intro L
  induction L with
  | nil => intro init; rfl
  | cons a L ih =>
    intro init
    rw [List.foldl_cons, ih, hstep]

theorem overlapFix_map {α : Type} (f : QuiltShape → α)
    (hf : ∀ s pos, f { s with position := pos } = f s)
    (l : List QuiltShape) (i j : ℕ) :
    (overlapFix l i j).map f = l.map f := by
  unfold overlapFix
  cases h1 : l.get? i with
  | none => rfl
  | some s1 =>
    cases h2 : l.get? j with
    | none => rfl
    | some s2 =>
      dsimp only
      split_ifs with hov hax
      · apply map_set_pres
        intro y hy
        rw [h2] at hy
        injection hy with hy
        subst hy
        exact hf s2 _
      · apply map_set_pres
        intro y hy
        rw [h2] at hy
        injection hy with hy
        subst hy
        exact hf s2 _
      · rfl

theorem checkForOverlaps_map {α : Type} (f : QuiltShape → α)
    (hf : ∀ s pos, f { s with position := pos } = f s)
    (l : List QuiltShape) :
    (checkForOverlaps l).map f = l.map f := by
  unfold checkForOverlaps
  exact foldl_map_pres f _
    (fun acc (ij : ℕ × ℕ) => overlapFix_map f hf acc ij.1 ij.2) _ l

theorem fillGapRight_map {α : Type} (f : QuiltShape → α)
    (hf : ∀ s pos, f { s with position := pos } = f s)
    (b : Bounds) (l : List QuiltShape) (k : ℕ) :
    (fillGapRight b l k).map f = l.map f := by
  unfold fillGapRight
  cases hk : l.get? k with
  | none => rfl
  | some shape =>
    dsimp only
    split_ifs with h1 h2
    · apply map_set_pres
      intro y hy
      rw [hk] at hy
      injection hy with hy
      subst hy
      exact hf shape _
    · rfl
    · rfl

theorem fillGapBottom_map {α : Type} (f : QuiltShape → α)
    (hf : ∀ s pos, f { s with position := pos } = f s)
    (b : Bounds) (l : List QuiltShape) (k : ℕ) :
    (fillGapBottom b l k).map f = l.map f := by
  unfold fillGapBottom
  cases hk : l.get? k with
  | none => rfl
  | some shape =>
    dsimp only
    split_ifs with h1 h2
    · apply map_set_pres
      intro y hy
      rw [hk] at hy
      injection hy with hy
      subst hy
      exact hf shape _
    · rfl
    · rfl

theorem fillGaps_map {α : Type} (f : QuiltShape → α)
    (hf : ∀ s pos, f { s with position := pos } = f s)
    (l : List QuiltShape) :
    (fillGaps l).map f = l.map f := by
  unfold fillGaps
  exact foldl_map_pres f _
    (fun acc k => by
      unfold fillGapsStep
      rw [fillGapBottom_map f hf, fillGapRight_map f hf])
    _ l

theorem checkForGaps_map {α : Type} (f : QuiltShape → α)
    (hf : ∀ s pos, f { s with position := pos } = f s)
    (l : List QuiltShape) :
    (checkForGaps l).map f = l.map f := by
  unfold checkForGaps
  dsimp only
  split_ifs with h
  · exact fillGaps_map f hf l
  · rfl

theorem ensureNoGaps_map {α : Type} (f : QuiltShape → α)
    (hf : ∀ s pos, f { s with position := pos } = f s)
    (l : List QuiltShape) :
    (ensureNoGaps l).map f = l.map f := by
  unfold ensureNoGaps
  rw [checkForGaps_map f hf, checkForOverlaps_map f hf, List.map_map]
  apply List.map_congr_left
  intro s _
  exact hf s _

theorem mem_of_map_pres {α : Type} {f : QuiltShape → α}
    {l l' : List QuiltShape} (h : l'.map f = l.map f)
    {t : QuiltShape} (ht : t ∈ l') : ∃ u ∈ l, f u = f t := by
  have hmem : f t ∈ l.map f := by
    rw [← h]
    exact List.mem_map_of_mem f ht
  rcases List.mem_map.mp hmem with ⟨u, hu, he⟩
  exact ⟨u, hu, he⟩

theorem foldl_assign_shapes_map {α : Type} (f : QuiltShape → α)
    (hf : ∀ s fam, f { s with colorFamily := fam } = f s) :
    ∀ (L : List (String × List String)) (st : QuiltAppState),
      ((L.foldl assignFamilyGroup st).shapes).map f = st.shapes.map f := by
  intro L
  induction L with
  | nil => intro st; rfl
  | cons e L ih =>
    intro st
    rw [List.foldl_cons, ih]
    unfold assignFamilyGroup
    dsimp only
    rw [List.map_map]
    apply List.map_congr_left
    intro s _
    dsimp only [Function.comp]
    by_cases h : (e.2.any fun color => isColorSimilar s.color color) = true
    · rw [if_pos h]
      exact hf s _
    · rw [if_neg h]

theorem foldl_assign_phase :
    ∀ (L : List (String × List String)) (st : QuiltAppState),
      (L.foldl assignFamilyGroup st).phase = st.phase := by
  intro L
  induction L with
  | nil => intro st; rfl
  | cons e L ih => intro st; rw [List.foldl_cons, ih]; rfl

theorem foldl_assign_count :
    ∀ (L : List (String × List String)) (st : QuiltAppState),
      (L.foldl assignFamilyGroup st).submissionCount = st.submissionCount := by
  intro L
  induction L with
  | nil => intro st; rfl
  | cons e L ih => intro st; rw [List.foldl_cons, ih]; rfl

theorem foldl_assign_keyArr :
    ∀ (L : List (String × List String)) (st : QuiltAppState),
      (L.foldl assignFamilyGroup st).keyShapesColorArray =
        st.keyShapesColorArray := by
  intro L
  induction L with
  | nil => intro st; rfl
  | cons e L ih => intro st; rw [List.foldl_cons, ih]; rfl

theorem freezePhase_phase (st : QuiltAppState) :
    (freezePhase st).phase = Phase.postFreeze := by
  unfold freezePhase assignColorFamilies
  rw [foldl_assign_phase]

theorem freezePhase_count (st : QuiltAppState) :
    (freezePhase st).submissionCount = st.submissionCount := by
  unfold freezePhase assignColorFamilies
  rw [foldl_assign_count]

theorem freezePhase_keyArr (st : QuiltAppState) :
    (freezePhase st).keyShapesColorArray = st.shapes.map fun s => s.color := by
  unfold freezePhase assignColorFamilies
  rw [foldl_assign_keyArr]
  dsimp only
  rw [List.map_map]
  rfl

theorem freezePhase_shapes_map {α : Type} (f : QuiltShape → α)
    (hf1 : ∀ s fam, f { s with colorFamily := fam } = f s)
    (hf2 : ∀ s, f { s with type := ShapeType.key } = f s)
    (st : QuiltAppState) :
    (freezePhase st).shapes.map f = st.shapes.map f := by
  unfold freezePhase assignColorFamilies
  rw [foldl_assign_shapes_map f hf1]
  dsimp only
  rw [List.map_map]
  apply List.map_congr_left
  intro s _
  exact hf2 s

theorem freezePhase_types (st : QuiltAppState) :
    ∀ t ∈ (freezePhase st).shapes, t.type = ShapeType.key := by
  intro t ht
  have h : (freezePhase st).shapes.map (fun s => s.type) =
      st.shapes.map fun _ => ShapeType.key := by
    unfold freezePhase assignColorFamilies
    rw [foldl_assign_shapes_map (fun s => s.type) (fun s fam => rfl)]
    dsimp only
    rw [List.map_map]
    rfl
  have hmem : t.type ∈ st.shapes.map fun _ => ShapeType.key := by
    rw [← h]
    exact List.mem_map_of_mem _ ht
  rcases List.mem_map.mp hmem with ⟨w, _, hwe⟩
  exact hwe.symm

theorem addSubmission_fst (st : QuiltAppState) :
    (addSubmission st).1 = st.submissionCount + 1 := rfl

theorem addSubmission_count (st : QuiltAppState) :
    ((addSubmission st).2).submissionCount = st.submissionCount + 1 := by
  unfold addSubmission
  dsimp only
  split_ifs with h
  · rw [freezePhase_count]
  · rfl

theorem addSubmission_phase (st : QuiltAppState) :
    ((addSubmission st).2).phase =
      if st.submissionCount + 1 = FREEZE_THRESHOLD then Phase.postFreeze
      else st.phase := by
  unfold addSubmission
  dsimp only
  split_ifs with h
  · rw [freezePhase_phase]
  · rfl

theorem addSubmission_shapes_core (st : QuiltAppState) :
    ((addSubmission st).2).shapes.map shapeCore = st.shapes.map shapeCore := by
  unfold addSubmission
  dsimp only
  split_ifs with h
  · exact freezePhase_shapes_map shapeCore (fun s fam => rfl) (fun s => rfl) _
  · rfl

theorem foldl_choice_mem {α : Type} (g : α → α → α)
    (hg : ∀ b x, g b x = x ∨ g b x = b) :
    ∀ (l : List α) (first : α), l.foldl g first ∈ first :: l := by
  intro l
  induction l with
  | nil => intro first; exact List.mem_cons_self _ _
  | cons a l ih =>
    intro first
    rw [List.foldl_cons]
    rcases List.mem_cons.mp (ih (g first a)) with h | h
    · rw [h]
      rcases hg first a with h2 | h2
      · rw [h2]
        exact List.mem_cons_of_mem _ (List.mem_cons_self a l)
      · rw [h2]
        exact List.mem_cons_self _ _
    · exact List.mem_cons_of_mem _ (List.mem_cons_of_mem _ h)

theorem foldMostSimilar_mem (c : String) (first : QuiltShape)
    (l : List QuiltShape) : foldMostSimilar c first l ∈ first :: l := by
  unfold foldMostSimilar
  apply foldl_choice_mem
  intro b x
  dsimp only
  split_ifs
  · exact Or.inl rfl
  · exact Or.inr rfl

theorem foldLargest_mem (first : QuiltShape) (l : List QuiltShape) :
    foldLargest first l ∈ first :: l := by
  unfold foldLargest
  apply foldl_choice_mem
  intro b x
  dsimp only
  split_ifs
  · exact Or.inl rfl
  · exact Or.inr rfl

theorem findMostSimilarKeyShape_mem (app : QuiltAppState) (c : String)
    (k : QuiltShape) (h : findMostSimilarKeyShape app c = some k) :
    k ∈ app.shapes := by
  unfold findMostSimilarKeyShape at h
  cases hks : keyShapeCandidates app c with
  | nil => rw [hks] at h; cases h
  | cons first rest =>
    rw [hks] at h
    injection h with h'
    have hk2 : k ∈ first :: (first :: rest) := by
      rw [← h']
      exact foldMostSimilar_mem c first (first :: rest)
    have hk3 : k ∈ keyShapeCandidates app c := by
      rw [hks]
      rcases List.mem_cons.mp hk2 with h2 | h2
      · rw [h2]
        exact List.mem_cons_self _ _
      · exact h2
    unfold keyShapeCandidates at hk3
    exact List.mem_of_mem_filter hk3

theorem createNewBorderShape_error (st : EngineState) (c : String) (o : Oracle) :
    createNewBorderShape st c o = Except.error JsError.typeError := by
  unfold createNewBorderShape createBorderShapeForSide
    engineUserTrackerGetCurrentUserId
  rfl

theorem selectBorderShape_mem (st : EngineState) (c : String) (o : Oracle)
    (k : QuiltShape) (h : selectBorderShape st c o = Except.ok k) :
    k ∈ st.appState.shapes := by
  unfold selectBorderShape at h
  cases hbc : borderCandidates st with
  | nil =>
    rw [hbc, createNewBorderShape_error] at h
    cases h
  | cons first rest =>
    rw [hbc] at h
    have hsub : ∀ x, x ∈ first :: rest → x ∈ st.appState.shapes := by
      intro x hx
      have : x ∈ borderCandidates st := by rw [hbc]; exact hx
      unfold borderCandidates at this
      exact List.mem_of_mem_filter this
    cases hfil : (first :: rest).filter fun s => isColorSimilar c s.color with
    | nil =>
      rw [hfil] at h
      injection h with h'
      apply hsub
      have := foldLargest_mem first (first :: rest)
      rw [h'] at this
      rcases List.mem_cons.mp this with h2 | h2
      · rw [h2]; exact List.mem_cons_self _ _
      · exact h2
    | cons sF rF =>
      rw [hfil] at h
      injection h with h'
      have hk2 : k ∈ sF :: (sF :: rF) := by
        rw [← h', ← hfil]
        have := foldMostSimilar_mem c sF ((first :: rest).filter
          fun s => isColorSimilar c s.color)
        rw [hfil] at this ⊢
        exact this
      have hk3 : k ∈ sF :: rF := by
        rcases List.mem_cons.mp hk2 with h2 | h2
        · rw [h2]; exact List.mem_cons_self _ _
        · exact h2
      apply hsub
      have : k ∈ (first :: rest).filter fun s => isColorSimilar c s.color := by
        rw [hfil]; exact hk3
      exact List.mem_of_mem_filter this

theorem selectShapeToSplit_mem (st : EngineState) (c : String) (o : Oracle)
    (sel : QuiltShape)
    (h : selectShapeToSplit st c o = Except.ok (some sel)) :
    sel ∈ st.appState.shapes := by
  unfold selectShapeToSplit at h
  split_ifs at h with hphase hsim
  · injection h with h'
    unfold getRandomSplittableShape at h'
    have hmem := List.get?_mem h'
    exact List.mem_of_mem_filter hmem
  · cases hk : findMostSimilarKeyShape st.appState c with
    | some k =>
      rw [hk] at h
      injection h with h'
      injection h' with h''
      rw [← h'']
      exact findMostSimilarKeyShape_mem _ _ _ hk
    | none =>
      rw [hk] at h
      cases hb : selectBorderShape st c o with
      | error e => rw [hb] at h; cases h
      | ok k =>
        rw [hb] at h
        simp only [Except.map] at h
        injection h with h'
        injection h' with h''
        rw [← h'']
        exact selectBorderShape_mem _ _ _ _ hb
  · cases hb : selectBorderShape st c o with
    | error e => rw [hb] at h; cases h
    | ok k =>
      rw [hb] at h
      simp only [Except.map] at h
      injection h with h'
      injection h' with h''
      rw [← h'']
      exact selectBorderShape_mem _ _ _ _ hb

theorem split_fields (s : QuiltShape) (c : String) (d : Direction)
    (cid : Option String) (si : ℕ) (rr : ℚ) (i1 i2 : ℕ) (A B : QuiltShape)
    (h : s.split c d cid si rr i1 i2 = Except.ok (A, B)) :
    A.id = i1 ∧ A.parentId = some s.id ∧ A.type = s.type ∧
    B.id = i2 ∧ B.parentId = some s.id ∧ B.type = s.type := by
  unfold QuiltShape.split at h
  split_ifs at h with hcs
  · cases d with
    | horizontal =>
      injection h with h'
      rw [Prod.mk.injEq] at h'
      obtain ⟨e1, e2⟩ := h'
      rw [← e1, ← e2]
      exact ⟨rfl, rfl, rfl, rfl, rfl, rfl⟩
    | vertical =>
      injection h with h'
      rw [Prod.mk.injEq] at h'
      obtain ⟨e1, e2⟩ := h'
      rw [← e1, ← e2]
      exact ⟨rfl, rfl, rfl, rfl, rfl, rfl⟩

theorem handle_id (app : QuiltAppState) (s : QuiltShape) (c : String) :
    (handlePostFreezeLogic app s c).id = s.id := by
  unfold handlePostFreezeLogic
  split_ifs <;> rfl

theorem handle_parentId (app : QuiltAppState) (s : QuiltShape) (c : String) :
    (handlePostFreezeLogic app s c).parentId = s.parentId := by
  unfold handlePostFreezeLogic
  split_ifs <;> rfl

theorem handle_type_of_similar (app : QuiltAppState) (s : QuiltShape)
    (c : String)
    (h : (app.keyShapesColorArray.any fun k => isColorSimilar c k) = true) :
    (handlePostFreezeLogic app s c).type = ShapeType.key := by
  unfold handlePostFreezeLogic
  rw [if_pos h]

theorem addColorValid_cases (st : EngineState) (c : String) (o : Oracle) :
    (addColorValid st c o).2 =
      { st with appState := (addSubmission st.appState).2 } ∨
    ∃ sel dir shape1 shape2,
      selectShapeToSplit { st with appState := (addSubmission st.appState).2 }
        c o = Except.ok (some sel) ∧
      getSplitDirection sel o.dirRand = Except.ok dir ∧
      sel.split c dir (some st.deviceId) (addSubmission st.appState).1
        o.fracRand st.nextId (st.nextId + 1) = Except.ok (shape1, shape2) ∧
      (addColorValid st c o).2 =
        { appState :=
            { (addSubmission st.appState).2 with
              shapes := ensureNoGaps
                (spliceById (addSubmission st.appState).2.shapes sel.id
                  [shape1,
                   if (addSubmission st.appState).2.phase = Phase.postFreeze
                   then handlePostFreezeLogic (addSubmission st.appState).2
                     shape2 c
                   else shape2]) },
          deviceId := st.deviceId, nextId := st.nextId + 2,
          contributions := st.contributions ++
            [(if (addSubmission st.appState).2.phase = Phase.postFreeze
              then handlePostFreezeLogic (addSubmission st.appState).2 shape2 c
              else shape2).id] } := by
  simp only [addColorValid]
  cases hsel : selectShapeToSplit
      { st with appState := (addSubmission st.appState).2 } c o with
  | error e => left; rfl
  | ok oSel =>
    cases oSel with
    | none => left; rfl
    | some sel =>
      dsimp only
      cases hdir : getSplitDirection sel o.dirRand with
      | error e => left; rfl
      | ok dir =>
        dsimp only
        cases hsp : sel.split c dir (some st.deviceId)
            (addSubmission st.appState).1 o.fracRand st.nextId
            (st.nextId + 1) with
        | error e => left; rfl
        | ok pr =>
          obtain ⟨shape1, shape2⟩ := pr
          right
          exact ⟨sel, dir, shape1, shape2, rfl, hdir, hsp, rfl⟩

theorem addColor_invalid (st : EngineState) (c : String) (o : Oracle)
    (h : hexToRgb c = none) :
    addColor st c o = (Except.error JsError.invalidColor, st) := by
  unfold addColor
  rw [if_pos h]

theorem addColor_valid (st : EngineState) (c : String) (o : Oracle)
    (h : hexToRgb c ≠ none) : addColor st c o = addColorValid st c o := by
  unfold addColor
  rw [if_neg h]

theorem addColorValid_count (st : EngineState) (c : String) (o : Oracle) :
    (addColorValid st c o).2.appState.submissionCount =
      st.appState.submissionCount + 1 := by
  rcases addColorValid_cases st c o with h | ⟨_, _, _, _, _, _, _, h⟩ <;>
    rw [h] <;> exact addSubmission_count st.appState

theorem addColorValid_phase (st : EngineState) (c : String) (o : Oracle) :
    (addColorValid st c o).2.appState.phase =
      (addSubmission st.appState).2.phase := by
  rcases addColorValid_cases st c o with h | ⟨_, _, _, _, _, _, _, h⟩ <;>
    rw [h]

theorem addColorValid_keyArr (st : EngineState) (c : String) (o : Oracle) :
    (addColorValid st c o).2.appState.keyShapesColorArray =
      (addSubmission st.appState).2.keyShapesColorArray := by
  rcases addColorValid_cases st c o with h | ⟨_, _, _, _, _, _, _, h⟩ <;>
    rw [h]

theorem step_count (st : EngineState) (inp : CallInput) :
    (step st inp).appState.submissionCount =
      if hexToRgb inp.color = none then st.appState.submissionCount
      else st.appState.submissionCount + 1 := by
  unfold step
  split_ifs with hc
  · rw [addColor_invalid _ _ _ hc]
  · rw [addColor_valid _ _ _ hc]
    exact addColorValid_count st inp.color inp.oracle

theorem step_count_ge (st : EngineState) (inp : CallInput) :
    st.appState.submissionCount ≤ (step st inp).appState.submissionCount := by
  rw [step_count]
  split_ifs <;> omega

theorem runTrace_cons (st : EngineState) (i : CallInput) (l : List CallInput) :
    runTrace st (i :: l) = runTrace (step st i) l := rfl

theorem runTrace_count (l : List CallInput) :
    ∀ st : EngineState, (∀ i ∈ l, hexToRgb i.color ≠ none) →
      (runTrace st l).appState.submissionCount =
        st.appState.submissionCount + l.length := by
  induction l with
  | nil => intro st _; rfl
  | cons i l ih =>
    intro st hv
    rw [runTrace_cons]
    rw [ih (step st i) fun j hj => hv j (List.mem_cons_of_mem _ hj)]
    rw [step_count, if_neg (hv i (List.mem_cons_self _ _))]
    simp only [List.length_cons]
    omega

theorem step_phase (st : EngineState) (inp : CallInput) :
    (step st inp).appState.phase =
      if hexToRgb inp.color = none then st.appState.phase
      else if st.appState.submissionCount + 1 = FREEZE_THRESHOLD
           then Phase.postFreeze else st.appState.phase := by
  unfold step
  split_ifs with hc ht
  · rw [addColor_invalid _ _ _ hc]
  · rw [addColor_valid _ _ _ hc, addColorValid_phase, addSubmission_phase,
      if_pos ht]
  · rw [addColor_valid _ _ _ hc, addColorValid_phase, addSubmission_phase,
      if_neg ht]

theorem step_phase_post (st : EngineState) (inp : CallInput)
    (h : st.appState.phase = Phase.postFreeze) :
    (step st inp).appState.phase = Phase.postFreeze := by
  rw [step_phase]
  split_ifs <;> first | exact h | rfl

theorem runTrace_post (l : List CallInput) :
    ∀ st : EngineState, st.appState.phase = Phase.postFreeze →
      (runTrace st l).appState.phase = Phase.postFreeze := by
  induction l with
  | nil => intro st h; exact h
  | cons i l ih =>
    intro st h
    rw [runTrace_cons]
    exact ih _ (step_phase_post _ _ h)

theorem step_phaseOK (st : EngineState) (inp : CallInput)
    (h : st.appState.phase = Phase.preFreeze ↔
      st.appState.submissionCount < FREEZE_THRESHOLD) :
    (step st inp).appState.phase = Phase.preFreeze ↔
      (step st inp).appState.submissionCount < FREEZE_THRESHOLD := by
  rw [step_phase, step_count]
  unfold FREEZE_THRESHOLD at *
  split_ifs with hc ht
  · exact h
  · constructor
    · intro hp; cases hp
    · intro hlt; omega
  · rw [h]
    omega

theorem runTrace_phaseOK (l : List CallInput) :
    ∀ st : EngineState,
      (st.appState.phase = Phase.preFreeze ↔
        st.appState.submissionCount < FREEZE_THRESHOLD) →
      ((runTrace st l).appState.phase = Phase.preFreeze ↔
        (runTrace st l).appState.submissionCount < FREEZE_THRESHOLD) := by
  induction l with
  | nil => intro st h; exact h
  | cons i l ih =>
    intro st h
    rw [runTrace_cons]
    exact ih _ (step_phaseOK _ _ h)

theorem freezeSteps_zero (l : List CallInput) :
    ∀ st : EngineState,
      FREEZE_THRESHOLD ≤ st.appState.submissionCount → freezeSteps st l = 0 := by
  induction l with
  | nil => intro st _; rfl
  | cons i l ih =>
    intro st h
    unfold freezeSteps
    rw [ih (step st i) (le_trans h (step_count_ge st i))]
    have hnt : freezeTriggered st i = false := by
      unfold freezeTriggered
      have : ¬ (st.appState.submissionCount + 1 = FREEZE_THRESHOLD) := by
        unfold FREEZE_THRESHOLD at *
        omega
      simp [this]
    rw [hnt]
    rfl

theorem freezeSteps_le_one (l : List CallInput) :
    ∀ st : EngineState, freezeSteps st l ≤ 1 := by
  induction l with
  | nil => intro st; exact Nat.zero_le 1
  | cons i l ih =>
    intro st
    unfold freezeSteps
    by_cases hf : freezeTriggered st i = true
    · rw [if_pos hf]
      unfold freezeTriggered at hf
      rw [Bool.and_eq_true] at hf
      obtain ⟨hf1, hf2⟩ := hf
      have hv := of_decide_eq_true hf1
      have hc := of_decide_eq_true hf2
      have h20 : FREEZE_THRESHOLD ≤ (step st i).appState.submissionCount := by
        rw [step_count, if_neg hv, hc]
      rw [freezeSteps_zero l _ h20]
    · rw [if_neg hf]
      simpa using ih (step st i)

/-- Claim C8: a call with a valid color increases `submissionCount` by
exactly 1 (even if it later fails, the increment is not rolled back), an
`addColor` call rejected with InvalidColor leaves the whole engine state
unchanged, and after N valid-color calls from `initialize` the count
equals N. -/
theorem c8_submission_count (st : EngineState) (c : String) (o : Oracle)
    (d : String) (l : List CallInput) :
    (hexToRgb c = none →
      addColor st c o = (Except.error JsError.invalidColor, st)) ∧
    (hexToRgb c ≠ none →
      (addColor st c o).2.appState.submissionCount =
        st.appState.submissionCount + 1) ∧
    ((∀ i ∈ l, hexToRgb i.color ≠ none) →
      (runTrace (initEngine d) l).appState.submissionCount = l.length) := by
  refine ⟨addColor_invalid st c o, ?_, ?_⟩
  · intro h
    rw [addColor_valid st c o h]
    exact addColorValid_count st c o
  · intro hv
    rw [runTrace_count l (initEngine d) hv]
    rw [show (initEngine d).appState.submissionCount = 0 from rfl]
    omega

/-- Witness for `c8_submission_count`: two valid-color calls from
`initialize` leave the count at 2, and an invalid color is rejected with
the state unchanged. -/
theorem c8_submission_count_witness :
    addColor (initEngine "dev") "zzz" ⟨0, 0, 0, 0⟩ =
      (Except.error JsError.invalidColor, initEngine "dev") ∧
    (runTrace (initEngine "dev") [halfInput, halfInput2]).appState.submissionCount = 2 := by
  constructor
  · exact (c8_submission_count (initEngine "dev") "zzz" ⟨0, 0, 0, 0⟩ "dev" []).1
      (by decide)
  · exact (c8_submission_count (initEngine "dev") "zzz" ⟨0, 0, 0, 0⟩ "dev"
      [halfInput, halfInput2]).2.2 (by decide)

theorem borderCandidates_nil_of_allkey (st : EngineState)
    (hall : ∀ t ∈ st.appState.shapes, t.type = ShapeType.key) :
    borderCandidates st = [] := by
  unfold borderCandidates
  rw [List.filter_eq_nil]
  intro a ha
  simp [hall a ha]

theorem select_post_similar (st : EngineState) (c : String) (o : Oracle)
    (sel : QuiltShape)
    (hphase : st.appState.phase = Phase.postFreeze)
    (hall : ∀ t ∈ st.appState.shapes, t.type = ShapeType.key)
    (hsel : selectShapeToSplit st c o = Except.ok (some sel)) :
    (st.appState.keyShapesColorArray.any fun k => isColorSimilar c k) = true := by
  unfold selectShapeToSplit at hsel
  rw [if_neg (by simp [hphase])] at hsel
  by_cases hsim :
      (st.appState.keyShapesColorArray.any fun k => isColorSimilar c k) = true
  · exact hsim
  · rw [if_neg hsim] at hsel
    have hb : selectBorderShape st c o = Except.error JsError.typeError := by
      unfold selectBorderShape
      rw [borderCandidates_nil_of_allkey st hall]
      exact createNewBorderShape_error st c o
    rw [hb] at hsel
    simp [Except.map] at hsel

theorem spliceById_mem (r : List QuiltShape) (tid : ℕ) :
    ∀ (l : List QuiltShape) (x : QuiltShape),
      x ∈ spliceById l tid r → x ∈ r ∨ x ∈ l := by
  intro l
  induction l with
  | nil => intro x hx; cases hx
  | cons s rest ih =>
    intro x hx
    unfold spliceById at hx
    split_ifs at hx with hid
    · rcases List.mem_append.mp hx with h | h
      · exact Or.inl h
      · exact Or.inr (List.mem_cons_of_mem _ h)
    · rcases List.mem_cons.mp hx with h | h
      · exact Or.inr (by rw [h]; exact List.mem_cons_self _ _)
      · rcases ih x h with h2 | h2
        · exact Or.inl h2
        · exact Or.inr (List.mem_cons_of_mem _ h2)

theorem freeze_call (st : EngineState) (c : String) (o : Oracle)
    (hcount : st.appState.submissionCount = 19) (hc : hexToRgb c ≠ none) :
    (step st ⟨c, o⟩).appState.phase = Phase.postFreeze ∧
    (∀ t ∈ (step st ⟨c, o⟩).appState.shapes, t.type = ShapeType.key) ∧
    (step st ⟨c, o⟩).appState.keyShapesColorArray =
      st.appState.shapes.map fun s => s.color := by
  have hfr : (addSubmission st.appState).2 =
      freezePhase
        { st.appState with
          submissionCount := st.appState.submissionCount + 1 } := by
    unfold addSubmission
    dsimp only
    rw [if_pos (by rw [hcount]; rfl)]
  have hphase1 : (addSubmission st.appState).2.phase = Phase.postFreeze := by
    rw [hfr, freezePhase_phase]
  have htypes1 : ∀ t ∈ (addSubmission st.appState).2.shapes,
      t.type = ShapeType.key := by
    rw [hfr]
    exact freezePhase_types _
  have hkey1 : (addSubmission st.appState).2.keyShapesColorArray =
      st.appState.shapes.map fun s => s.color := by
    rw [hfr, freezePhase_keyArr]
  have hstep : step st ⟨c, o⟩ = (addColorValid st c o).2 := by
    unfold step
    rw [addColor_valid st c o hc]
  rw [hstep]
  rcases addColorValid_cases st c o with h | ⟨sel, dir, s1, s2, hsel, hdir, hsp, h⟩
  · rw [h]
    exact ⟨hphase1, htypes1, hkey1⟩
  · rw [h]
    refine ⟨hphase1, ?_, hkey1⟩
    intro t ht
    have hmetamap := ensureNoGaps_map (fun s => s.type) (fun s pos => rfl)
      (spliceById (addSubmission st.appState).2.shapes sel.id
        [s1, if (addSubmission st.appState).2.phase = Phase.postFreeze
             then handlePostFreezeLogic (addSubmission st.appState).2 s2 c
             else s2])
    rcases mem_of_map_pres hmetamap ht with ⟨u, hu, hut⟩
    rw [← hut]
    have hselmem : sel ∈ (addSubmission st.appState).2.shapes :=
      selectShapeToSplit_mem _ _ _ _ hsel
    have hseltype : sel.type = ShapeType.key := htypes1 sel hselmem
    rcases spliceById_mem _ _ _ _ hu with hr | hl
    · rcases List.mem_cons.mp hr with h1 | h1
      · obtain ⟨_, _, ht1, _, _, _⟩ := split_fields _ _ _ _ _ _ _ _ _ _ hsp
        rw [h1, ht1, hseltype]
      · have h2 : u = if (addSubmission st.appState).2.phase = Phase.postFreeze
            then handlePostFreezeLogic (addSubmission st.appState).2 s2 c
            else s2 := by
          rcases List.mem_cons.mp h1 with h2 | h2
          · exact h2
          · cases h2
        rw [h2, if_pos hphase1]
        apply handle_type_of_similar
        exact select_post_similar _ _ _ _ hphase1 htypes1 hsel
    · exact htypes1 u hl

/-- Claim C4: from `initialize`, the phase is PreFreeze exactly while the
submission count is below 20 - in particular it is still PreFreeze after
any 19 valid addColor calls; during the call in which the count becomes 20
the phase flips to PostFreeze, every live tile is labeled a key shape (the
tiles existing at the freeze moment are relabeled, and the children the
freezing call may splice in inherit or are assigned the key label), and
the colors of the tiles existing at that moment are captured into the
frozen color array; the phase never returns to PreFreeze, and the freeze
transformation runs at most once along any call sequence. -/
theorem c4_phase_machine (d : String) (l l2 : List CallInput)
    (st : EngineState) (c : String) (o : Oracle) :
    ((runTrace (initEngine d) l).appState.phase = Phase.preFreeze ↔
      (runTrace (initEngine d) l).appState.submissionCount < FREEZE_THRESHOLD) ∧
    ((∀ i ∈ l, hexToRgb i.color ≠ none) → l.length = 19 →
      (runTrace (initEngine d) l).appState.submissionCount = 19 ∧
      (runTrace (initEngine d) l).appState.phase = Phase.preFreeze) ∧
    (st.appState.submissionCount = 19 → hexToRgb c ≠ none →
      (step st ⟨c, o⟩).appState.phase = Phase.postFreeze ∧
      (∀ t ∈ (step st ⟨c, o⟩).appState.shapes, t.type = ShapeType.key) ∧
      (step st ⟨c, o⟩).appState.keyShapesColorArray =
        st.appState.shapes.map fun s => s.color) ∧
    (st.appState.phase = Phase.postFreeze →
      (runTrace st l2).appState.phase = Phase.postFreeze) ∧
    freezeSteps st l2 ≤ 1 := by
  have hOK := runTrace_phaseOK l (initEngine d)
    ⟨fun _ => by show (0 : ℕ) < FREEZE_THRESHOLD; decide, fun _ => rfl⟩
  refine ⟨hOK, ?_, freeze_call st c o, runTrace_post l2 st,
    freezeSteps_le_one l2 st⟩
  intro hv hlen
  have hcount : (runTrace (initEngine d) l).appState.submissionCount = 19 := by
    rw [runTrace_count l _ hv, hlen]
    rfl
  refine ⟨hcount, hOK.mpr ?_⟩
  rw [hcount]
  decide

/-- Witness for `c4_phase_machine`: the valid call on a state with count 19
freezes - the phase flips, the single live tile is a key shape, and its
color is captured. -/
theorem c4_phase_machine_witness :
    c4State19.appState.submissionCount = 19 ∧
    (step c4State19 ⟨"#ff0000", ⟨0, 0, 1 / 2, 0⟩⟩).appState.phase =
      Phase.postFreeze ∧
    (step c4State19 ⟨"#ff0000", ⟨0, 0, 1 / 2, 0⟩⟩).appState.keyShapesColorArray =
      ["#f7b733"] := by
  obtain ⟨h1, _, h3⟩ :=
    (c4_phase_machine "dev" [] [] c4State19 "#ff0000" ⟨0, 0, 1 / 2, 0⟩).2.2.1
      rfl (by decide)
  refine ⟨rfl, h1, ?_⟩
  rw [h3]
  rfl

theorem selectShapeToSplit_post_dissimilar (st : EngineState) (c : String)
    (o : Oracle)
    (hp : st.appState.phase = Phase.postFreeze)
    (hdis : (st.appState.keyShapesColorArray.any fun k =>
      isColorSimilar c k) = false)
    (hnob : borderCandidates st = []) :
    selectShapeToSplit st c o = Except.error JsError.typeError := by
  unfold selectShapeToSplit
  rw [if_neg (by simp [hp])]
  rw [if_neg (by simp [hdis])]
  have hb : selectBorderShape st c o = Except.error JsError.typeError := by
    unfold selectBorderShape
    rw [hnob]
    exact createNewBorderShape_error st c o
  rw [hb]
  rfl

/-- Claim C2 is violated by the code: in any post-freeze state (count
already at or beyond the threshold) where the new color is dissimilar from
every frozen color and no splittable border tile exists, `addColor` does
not return successfully with a new border tile - it throws a TypeError,
because `createBorderShapeForSide` reads `this.userTracker`, which the
engine constructor never assigns (and the construction it would perform
passes positional arguments to the options-object QuiltShape
constructor).  The live tiles are left unchanged; only the submission
counter has advanced. -/
theorem c2_border_growth_crashes (st : EngineState) (c : String) (o : Oracle)
    (hc : hexToRgb c ≠ none)
    (hp : st.appState.phase = Phase.postFreeze)
    (hcount : FREEZE_THRESHOLD ≤ st.appState.submissionCount)
    (hdis : ∀ k ∈ st.appState.keyShapesColorArray, isColorSimilar c k = false)
    (hnob : borderCandidates st = []) :
    (addColor st c o).1 = Except.error JsError.typeError ∧
    (addColor st c o).2.appState.shapes = st.appState.shapes ∧
    (addColor st c o).2.appState.submissionCount =
      st.appState.submissionCount + 1 := by
  rw [addColor_valid st c o hc]
  have hnf : (addSubmission st.appState).2 =
      { st.appState with
        submissionCount := st.appState.submissionCount + 1 } := by
    unfold addSubmission
    dsimp only
    rw [if_neg (by unfold FREEZE_THRESHOLD at *; omega)]
  have hdis2 : (st.appState.keyShapesColorArray.any fun k =>
      isColorSimilar c k) = false := by
    rw [List.any_eq_false]
    intro k hk
    simp [hdis k hk]
  have hsel2 : selectShapeToSplit
      { st with appState := (addSubmission st.appState).2 } c o =
      Except.error JsError.typeError := by
    apply selectShapeToSplit_post_dissimilar
    · rw [hnf]
      exact hp
    · rw [hnf]
      exact hdis2
    · rw [hnf]
      exact hnob
  simp only [addColorValid]
  rw [hsel2]
  refine ⟨rfl, ?_, ?_⟩
  · show (addSubmission st.appState).2.shapes = st.appState.shapes
    rw [hnf]
  · exact addSubmission_count st.appState

/-- Witness for `c2_border_growth_crashes`: a concrete frozen state with a
single full-canvas key tile of the default color receives the dissimilar
color `#0000ff` (distance ≈ 369 from `#f7b733`) and the call throws the
TypeError. -/
theorem c2_border_growth_crashes_witness :
    (addColor c2State "#0000ff" ⟨0, 0, 0, 0⟩).1 =
      Except.error JsError.typeError ∧
    (addColor c2State "#0000ff" ⟨0, 0, 0, 0⟩).2.appState.shapes =
      c2State.appState.shapes := by
  obtain ⟨h1, h2, _⟩ := c2_border_growth_crashes c2State "#0000ff" ⟨0, 0, 0, 0⟩
    (by decide) rfl (by decide) (by decide) (by decide)
  exact ⟨h1, h2⟩

theorem idp_of_core {l l' : List QuiltShape}
    (h : l'.map shapeCore = l.map shapeCore) :
    l'.map shapeIdp = l.map shapeIdp := by
  calc l'.map shapeIdp
      = (l'.map shapeCore).map fun x => (x.1, x.2.1) := by
        rw [List.map_map]; rfl
    _ = (l.map shapeCore).map fun x => (x.1, x.2.1) := by rw [h]
    _ = l.map shapeIdp := by rw [List.map_map]; rfl

theorem idp_of_meta {l l' : List QuiltShape}
    (h : l'.map shapeMeta = l.map shapeMeta) :
    l'.map shapeIdp = l.map shapeIdp := by
  calc l'.map shapeIdp
      = (l'.map shapeMeta).map fun x => (x.1, x.2.2.2.1) := by
        rw [List.map_map]; rfl
    _ = (l.map shapeMeta).map fun x => (x.1, x.2.2.2.1) := by rw [h]
    _ = l.map shapeIdp := by rw [List.map_map]; rfl

theorem shapesGood_of_idp_eq {l l' : List QuiltShape} {n : ℕ}
    (h : l'.map shapeIdp = l.map shapeIdp) (hg : shapesGood l n) :
    shapesGood l' n := by
  obtain ⟨h1, h2, h3, h4⟩ := hg
  have hids : (l'.map fun s => s.id) = l.map fun s => s.id := by
    calc (l'.map fun s => s.id)
        = (l'.map shapeIdp).map fun x => x.1 := by rw [List.map_map]; rfl
      _ = (l.map shapeIdp).map fun x => x.1 := by rw [h]
      _ = l.map fun s => s.id := by rw [List.map_map]; rfl
  have hcore : ∀ t ∈ l', ∃ u ∈ l, u.id = t.id ∧ u.parentId = t.parentId := by
    intro t ht
    rcases mem_of_map_pres h ht with ⟨u, hu, he⟩
    exact ⟨u, hu, congrArg (fun x => x.1) he, congrArg (fun x => x.2) he⟩
  refine ⟨?_, ?_, ?_, ?_⟩
  · intro t ht
    rcases hcore t ht with ⟨u, hu, hid, _⟩
    rw [← hid]
    exact h1 u hu
  · intro t ht p hp
    rcases hcore t ht with ⟨u, hu, _, hpar⟩
    exact h2 u hu p (by rw [hpar]; exact hp)
  · rw [hids]
    exact h3
  · intro t ht p hp u' hu'
    rcases hcore t ht with ⟨u, hu, _, hpar⟩
    rcases hcore u' hu' with ⟨w, hw, hwid, _⟩
    rw [← hwid]
    exact h4 u hu p (by rw [hpar]; exact hp) w hw

theorem shapesGood_cons {s : QuiltShape} {rest : List QuiltShape} {n : ℕ}
    (h : shapesGood (s :: rest) n) : shapesGood rest n := by
  obtain ⟨h1, h2, h3, h4⟩ := h
  rw [List.map_cons] at h3
  refine ⟨fun t ht => h1 t (List.mem_cons_of_mem _ ht),
    fun t ht p hp => h2 t (List.mem_cons_of_mem _ ht) p hp,
    (List.nodup_cons.mp h3).2,
    fun t ht p hp u hu => h4 t (List.mem_cons_of_mem _ ht) p hp u
      (List.mem_cons_of_mem _ hu)⟩

theorem mem_two_append {x a b : QuiltShape} {rest : List QuiltShape}
    (h : x ∈ [a, b] ++ rest) : x = a ∨ x = b ∨ x ∈ rest := by
  rcases List.mem_append.mp h with h | h
  · rcases List.mem_cons.mp h with h | h
    · exact Or.inl h
    · rcases List.mem_cons.mp h with h | h
      · exact Or.inr (Or.inl h)
      · cases h
  · exact Or.inr (Or.inr h)

theorem spliceById_good (a b : QuiltShape) (n tid : ℕ)
    (ha_id : a.id = n) (ha_p : a.parentId = some tid)
    (hb_id : b.id = n + 1) (hb_p : b.parentId = some tid) :
    ∀ l : List QuiltShape, shapesGood l n →
      tid ∈ (l.map fun s => s.id) →
      shapesGood (spliceById l tid [a, b]) (n + 2) := by
  intro l
  induction l with
  | nil =>
    intro _ htid
    simp at htid
  | cons s rest ih =>
    intro hg htid
    have htidlt : tid < n := by
      rcases List.mem_map.mp htid with ⟨w, hw, hwid⟩
      rw [← hwid]
      exact hg.1 w hw
    obtain ⟨hg1, hg2, hg3, hg4⟩ := hg
    have hg3c : s.id ∉ (rest.map fun u => u.id) ∧
        (rest.map fun u => u.id).Nodup := by
      rw [List.map_cons] at hg3
      exact List.nodup_cons.mp hg3
    have hltn : ∀ x ∈ rest, x.id < n := fun x hx =>
      hg1 x (List.mem_cons_of_mem _ hx)
    unfold spliceById
    split_ifs with hid
    · refine ⟨?_, ?_, ?_, ?_⟩
      · intro t ht
        rcases mem_two_append ht with h | h | h
        · rw [h, ha_id]; omega
        · rw [h, hb_id]; omega
        · have := hltn t h; omega
      · intro t ht p hp
        rcases mem_two_append ht with h | h | h
        · rw [h, ha_p] at hp
          injection hp with hp
          omega
        · rw [h, hb_p] at hp
          injection hp with hp
          omega
        · have := hg2 t (List.mem_cons_of_mem _ h) p hp; omega
      · show ((a :: b :: rest).map fun u => u.id).Nodup
        rw [List.map_cons, List.map_cons, List.nodup_cons, List.nodup_cons]
        refine ⟨?_, ?_, hg3c.2⟩
        · intro hmem
          rcases List.mem_cons.mp hmem with h | h
          · rw [ha_id, hb_id] at h; omega
          · rcases List.mem_map.mp h with ⟨w, hw, hwid⟩
            have hwid2 : w.id = a.id := hwid
            have hwlt := hltn w hw
            omega
        · intro hmem
          rcases List.mem_map.mp hmem with ⟨w, hw, hwid⟩
          have hwid2 : w.id = b.id := hwid
          have hwlt := hltn w hw
          omega
      · intro t ht p hp u hu
        have hunottid : ∀ w ∈ rest, w.id ≠ tid := by
          intro w hw hwtid
          exact hg3c.1 (by rw [hid, ← hwtid]; exact List.mem_map_of_mem _ hw)
        rcases mem_two_append ht with h | h | h
        · rw [h, ha_p] at hp
          injection hp with hp
          subst hp
          rcases mem_two_append hu with h2 | h2 | h2
          · rw [h2, ha_id]; omega
          · rw [h2, hb_id]; omega
          · exact hunottid u h2
        · rw [h, hb_p] at hp
          injection hp with hp
          subst hp
          rcases mem_two_append hu with h2 | h2 | h2
          · rw [h2, ha_id]; omega
          · rw [h2, hb_id]; omega
          · exact hunottid u h2
        · have hplt : p < n := hg2 t (List.mem_cons_of_mem _ h) p hp
          rcases mem_two_append hu with h2 | h2 | h2
          · rw [h2, ha_id]; omega
          · rw [h2, hb_id]; omega
          · exact hg4 t (List.mem_cons_of_mem _ h) p hp u
              (List.mem_cons_of_mem _ h2)
    · have htid2 : tid ∈ (rest.map fun u => u.id) := by
        rw [List.map_cons] at htid
        rcases List.mem_cons.mp htid with h | h
        · exact absurd h.symm hid
        · exact h
      have hIH := ih (shapesGood_cons ⟨hg1, hg2, hg3, hg4⟩) htid2
      obtain ⟨i1, i2, i3, i4⟩ := hIH
      have hmemSP : ∀ x ∈ spliceById rest tid [a, b],
          x = a ∨ x = b ∨ x ∈ rest := by
        intro x hx
        rcases spliceById_mem _ _ _ _ hx with h | h
        · rcases List.mem_cons.mp h with h | h
          · exact Or.inl h
          · rcases List.mem_cons.mp h with h | h
            · exact Or.inr (Or.inl h)
            · cases h
        · exact Or.inr (Or.inr h)
      have hslt : s.id < n := hg1 s (List.mem_cons_self _ _)
      refine ⟨?_, ?_, ?_, ?_⟩
      · intro t ht
        rcases List.mem_cons.mp ht with h | h
        · rw [h]; omega
        · exact i1 t h
      · intro t ht p hp
        rcases List.mem_cons.mp ht with h | h
        · have := hg2 s (List.mem_cons_self _ _) p (by rw [← h]; exact hp)
          omega
        · exact i2 t h p hp
      · rw [List.map_cons, List.nodup_cons]
        refine ⟨?_, i3⟩
        intro hmem
        rcases List.mem_map.mp hmem with ⟨w, hw, hwid⟩
        rcases hmemSP w hw with h | h | h
        · rw [h, ha_id] at hwid; omega
        · rw [h, hb_id] at hwid; omega
        · exact hg3c.1 (by rw [← hwid]; exact List.mem_map_of_mem _ h)
      · intro t ht p hp u hu
        rcases List.mem_cons.mp ht with h | h
        · -- t = s
          have hps := hg4 s (List.mem_cons_self _ _) p (by rw [← h]; exact hp)
          have hplt : p < n :=
            hg2 s (List.mem_cons_self _ _) p (by rw [← h]; exact hp)
          rcases List.mem_cons.mp hu with h2 | h2
          · rw [h2]
            exact hps s (List.mem_cons_self _ _)
          · rcases hmemSP u h2 with h3 | h3 | h3
            · rw [h3, ha_id]; omega
            · rw [h3, hb_id]; omega
            · exact hps u (List.mem_cons_of_mem _ h3)
        · -- t in the spliced tail
          rcases List.mem_cons.mp hu with h2 | h2
          · rw [h2]
            rcases hmemSP t h with h3 | h3 | h3
            · rw [h3, ha_p] at hp
              injection hp with hp
              subst hp
              exact fun he => hid he
            · rw [h3, hb_p] at hp
              injection hp with hp
              subst hp
              exact fun he => hid he
            · intro he
              exact hg4 t (List.mem_cons_of_mem _ h3) p hp s
                (List.mem_cons_self _ _) he
          · exact i4 t h p hp u h2

theorem initEngine_good (d : String) : GoodState (initEngine d) := by
  refine ⟨?_, ?_, ?_, ?_⟩
  · intro t ht
    cases ht with
    | head => exact Nat.zero_lt_one
    | tail _ h => cases h
  · intro t ht p hp
    cases ht with
    | head => exact Option.noConfusion hp
    | tail _ h => cases h
  · exact List.nodup_singleton _
  · intro t ht p hp
    cases ht with
    | head => exact Option.noConfusion hp
    | tail _ h => cases h

theorem step_good (st : EngineState) (inp : CallInput) (hg : GoodState st) :
    GoodState (step st inp) := by
  unfold step
  by_cases hc : hexToRgb inp.color = none
  · rw [addColor_invalid _ _ _ hc]
    exact hg
  · rw [addColor_valid _ _ _ hc]
    rcases addColorValid_cases st inp.color inp.oracle with
      h | ⟨sel, dir, s1, s2, hsel, hdir, hsp, h⟩
    · rw [h]
      show shapesGood (addSubmission st.appState).2.shapes st.nextId
      exact shapesGood_of_idp_eq (idp_of_core (addSubmission_shapes_core st.appState)) hg
    · rw [h]
      show shapesGood (ensureNoGaps _) (st.nextId + 2)
      apply shapesGood_of_idp_eq
        (idp_of_meta (ensureNoGaps_map shapeMeta (fun s pos => rfl) _))
      have hg1 : shapesGood (addSubmission st.appState).2.shapes st.nextId :=
        shapesGood_of_idp_eq (idp_of_core (addSubmission_shapes_core st.appState)) hg
      have hselmem : sel ∈ (addSubmission st.appState).2.shapes :=
        selectShapeToSplit_mem _ _ _ _ hsel
      obtain ⟨e1, e2, _, e4, e5, _⟩ := split_fields _ _ _ _ _ _ _ _ _ _ hsp
      have hfid : (if (addSubmission st.appState).2.phase = Phase.postFreeze
          then handlePostFreezeLogic (addSubmission st.appState).2 s2 inp.color
          else s2).id = st.nextId + 1 := by
        split_ifs
        · rw [handle_id]; exact e4
        · exact e4
      have hfp : (if (addSubmission st.appState).2.phase = Phase.postFreeze
          then handlePostFreezeLogic (addSubmission st.appState).2 s2 inp.color
          else s2).parentId = some sel.id := by
        split_ifs
        · rw [handle_parentId]; exact e5
        · exact e5
      exact spliceById_good s1 _ st.nextId sel.id e1 e2 hfid hfp
        (addSubmission st.appState).2.shapes hg1
        (List.mem_map_of_mem _ hselmem)

theorem runTrace_good (l : List CallInput) :
    ∀ st : EngineState, GoodState st → GoodState (runTrace st l) := by
  induction l with
  | nil => intro st hg; exact hg
  | cons i l ih =>
    intro st hg
    rw [runTrace_cons]
    exact ih _ (step_good st i hg)

/-- Claim C9: in every state reachable from `initialize` by a sequence of
`addColor` calls, the live tiles' identifiers are pairwise distinct and no
live tile's `parentId` equals any live tile's identifier - the split gives
both children fresh identifiers and the removed parent's identifier as
`parentId`, and removes the parent in the same operation, so a `parentId`
walk restricted to live tiles can never advance even one step. -/
theorem c9_parent_dead (d : String) (l : List CallInput) :
    ((runTrace (initEngine d) l).appState.shapes.map fun s => s.id).Nodup ∧
    (∀ t ∈ (runTrace (initEngine d) l).appState.shapes, ∀ p,
      t.parentId = some p →
      ∀ u ∈ (runTrace (initEngine d) l).appState.shapes, u.id ≠ p) := by
  have hg := runTrace_good l (initEngine d) (initEngine_good d)
  exact ⟨hg.2.2.1, hg.2.2.2⟩

/-- Witness for `c9_parent_dead`: after one successful call the top child
(fresh id 1) points at the removed seed tile id 0, and no live tile
carries id 0. -/
theorem c9_parent_dead_witness :
    c9Child ∈ (runTrace (initEngine "dev") [halfInput]).appState.shapes ∧
    c9Child.parentId = some 0 ∧ c9Child.id ≠ 0 := by
  have hmem : c9Child ∈ (runTrace (initEngine "dev") [halfInput]).appState.shapes := by
    decide
  exact ⟨hmem, rfl,
    (c9_parent_dead "dev" [halfInput]).2 c9Child hmem 0 rfl c9Child hmem⟩

/-- Claim C10 is confirmed on a concrete frozen color set: the colors
`#ff0000` and `#800000` are mutually dissimilar (distance 127 > 35) yet
both carry the family name `red`; the grouping keyed by family name lets
the second group overwrite the first, so the returned map no longer
mentions `#ff0000`, and the family index built by `assignColorFamilies`
then indexes only the tile carrying `#800000` while the `#ff0000` tile is
left out (its family label stays unset). -/
theorem c10_family_overwrite :
    getColorFamilyName "#ff0000" = "red" ∧
    getColorFamilyName "#800000" = "red" ∧
    isColorSimilar "#ff0000" "#800000" = false ∧
    groupSimilarColors ["#ff0000", "#800000"] = [("red", ["#800000"])] ∧
    (assignColorFamilies c10App).colorFamilies = [("red", [1])] ∧
    (assignColorFamilies c10App).shapes.map (fun s => s.colorFamily) =
      [none, some "red"] := by
  refine ⟨by decide, by decide, by decide, by decide, by decide, by decide⟩

end Quilt
